import Mathlib

/-!
Verification of the cascadio container codec and metadata-injection engine
(src/extras.hpp, src/primitives.hpp, legacy src/convert.hpp).

Conventions of the shallow embedding:
* Bytes are `Nat` (values 0..255 in practice); byte sequences are `List Nat`.
* `uint32_t` values read/written via `memcpy` are modelled little-endian with
  explicit `% 2^32` where C++ overflow matters.
* The external JSON text codec (rapidjson `Parse` / `Writer`) is a parameter of
  the container codec: `write : Doc → List Nat` and `pj : List Nat → Option Doc`.
* The JSON scene graph mutated by the injectors is modelled by the inductive
  `Json` below; rapidjson objects preserve insertion order and `AddMember`
  appends without de-duplication, which the model mirrors.
* `Standard_Real` (double) is modelled as `ℚ` (exact arithmetic; floating-point
  rounding is outside the scope of these claims).
-/

namespace Cascadio

/-- GLB magic number ("glTF"), from extras.hpp. -/
def GLB_MAGIC : Nat := 0x46546C67

/-- GLB container version, from extras.hpp. -/
def GLB_VERSION : Nat := 2

/-- JSON chunk type tag, from extras.hpp. -/
def GLB_JSON_CHUNK : Nat := 0x4E4F534A

/-- Binary chunk type tag ("BIN\x00"), from extras.hpp. -/
def GLB_BIN_CHUNK : Nat := 0x004E4942

/-- Little-endian 4-byte encoding of a 32-bit value (memcpy of a `uint32_t`). -/
def le32 (n : Nat) : List Nat :=
  [n % 256, n / 256 % 256, n / 65536 % 256, n / 16777216 % 256]

/-- Byte at an offset; 0 when out of range (every in-range read in the source
is guarded by a length check). -/
def byteAt (l : List Nat) (i : Nat) : Nat := l.getD i 0

/-- memcpy of 4 bytes at an offset, assembled little-endian into a `uint32_t`. -/
def readLe32 (l : List Nat) (i : Nat) : Nat :=
  byteAt l i + 256 * byteAt l (i + 1) + 65536 * byteAt l (i + 2) +
    16777216 * byteAt l (i + 3)

/-- The `while (newJson.size() % 4 != 0) newJson += ' '` loop of serializeGlb:
pad the JSON text with ASCII spaces (0x20) to a 4-byte boundary. -/
def padJson (s : List Nat) : List Nat :=
  s ++ List.replicate ((4 - s.length % 4) % 4) 32

/-- serializeGlb from extras.hpp. The rapidjson writer is the parameter
`write`; the document is abstract. The binary chunk is emitted only when
`binData` is non-empty, exactly as in the source (`if (!binData.empty())`).
The emitted total-length field is the `uint32_t` sum computed by the source;
`le32` truncates it to 32 bits exactly as the 4-byte memcpy does. -/
def serializeGlb {Doc : Type} (write : Doc → List Nat) (d : Doc)
    (binData : List Nat) : List Nat :=
  let newJson := padJson (write d)
  let newJsonLength := newJson.length
  let newTotalLength :=
    12 + 8 + newJsonLength + (if binData ≠ [] then 8 + binData.length else 0)
  le32 GLB_MAGIC ++ le32 GLB_VERSION ++ le32 newTotalLength ++
    le32 newJsonLength ++ le32 GLB_JSON_CHUNK ++ newJson ++
    (if binData ≠ [] then le32 binData.length ++ le32 GLB_BIN_CHUNK ++ binData
     else [])

/-- parseGlb from extras.hpp. rapidjson `doc.Parse` is the parameter `pj`.
Returns the parsed document together with the optional binary slice
(`none` models `binData == nullptr`, i.e. a missing or mistyped trailing
chunk). The source reads the trailing chunk header before parsing the JSON;
the result is the same and the order is immaterial to success/failure.
The source keeps a raw pointer/length for the binary slice without a bounds
check; the model takes the (possibly truncated) slice, which is only ever
inspected by theorems on inputs whose lengths are consistent. -/
def parseGlb {Doc : Type} (pj : List Nat → Option Doc) (glbData : List Nat) :
    Option (Doc × Option (List Nat)) :=
  if glbData.length < 12 then none
  else if readLe32 glbData 0 ≠ GLB_MAGIC then none
  else if glbData.length < 20 then none
  else
    let jsonChunkLength := readLe32 glbData 12
    if readLe32 glbData 16 ≠ GLB_JSON_CHUNK then none
    else if 20 + jsonChunkLength > glbData.length then none
    else
      let jsonBytes := (glbData.drop 20).take jsonChunkLength
      let p := 20 + jsonChunkLength
      let bin : Option (List Nat) :=
        if p + 8 ≤ glbData.length then
          if readLe32 glbData (p + 4) = GLB_BIN_CHUNK then
            some ((glbData.drop (p + 8)).take (readLe32 glbData p))
          else none
        else none
      match pj jsonBytes with
      | none => none
      | some d => some (d, bin)

theorem byteAt_append_right (pre l : List Nat) (i : Nat) :
    byteAt (pre ++ l) (pre.length + i) = byteAt l i := by
  simp [byteAt, List.getD, List.getElem?_append_right, Nat.le_add_right]

theorem readLe32_append_right (pre l : List Nat) (i : Nat) :
    readLe32 (pre ++ l) (pre.length + i) = readLe32 l i := by
  have h1 : pre.length + i + 1 = pre.length + (i + 1) := by omega
  have h2 : pre.length + i + 2 = pre.length + (i + 2) := by omega
  have h3 : pre.length + i + 3 = pre.length + (i + 3) := by omega
  simp [readLe32, h1, h2, h3, byteAt_append_right]

theorem readLe32_le32 (n : Nat) (rest : List Nat) :
    readLe32 (le32 n ++ rest) 0 = n % 4294967296 := by
  simp [readLe32, le32, byteAt, List.getD]
  omega

theorem padJson_mod (s : List Nat) : (padJson s).length % 4 = 0 := by
  simp [padJson]
  omega

theorem padJson_length (s : List Nat) :
    (padJson s).length = s.length + (4 - s.length % 4) % 4 := by
  simp [padJson]

theorem le32_length (n : Nat) : (le32 n).length = 4 := rfl

theorem readLe32_mid (pre rest : List Nat) (n i : Nat) (h : pre.length = i) :
    readLe32 (pre ++ (le32 n ++ rest)) i = n % 4294967296 := by
  subst h
  have h0 := readLe32_append_right pre (le32 n ++ rest) 0
  rw [Nat.add_zero] at h0
  rw [h0, readLe32_le32]

/-- Main computation behind claim C1: parsing a serializer-produced container
recovers the document and the binary slice. The hypothesis `hpw` is the
property of the external JSON codec (rapidjson) that re-parsing written JSON
text, with trailing spaces tolerated as whitespace, recovers the document. -/
theorem parseGlb_serializeGlb {Doc : Type} (write : Doc → List Nat)
    (pj : List Nat → Option Doc)
    (hpw : ∀ (d : Doc) (n : Nat),
      pj (write d ++ List.replicate n 32) = some d)
    (d : Doc) (bin : List Nat)
    (hP : (padJson (write d)).length < 4294967296)
    (hbin : bin.length < 4294967296) :
    parseGlb pj (serializeGlb write d bin) =
      some (d, if bin = [] then none else some bin) := by
  set J := padJson (write d) with hJ
  set P := J.length with hPdef
  set T := 12 + 8 + P + (if bin ≠ [] then 8 + bin.length else 0) with hT
  set C := (if bin ≠ [] then le32 bin.length ++ le32 GLB_BIN_CHUNK ++ bin
    else []) with hC
  have hS : serializeGlb write d bin =
      le32 GLB_MAGIC ++ (le32 GLB_VERSION ++ (le32 T ++ (le32 P ++
        (le32 GLB_JSON_CHUNK ++ (J ++ C))))) := by
    simp only [serializeGlb, hC, hT, hJ, List.append_assoc]
  have hClen : C.length = if bin = [] then 0 else 8 + bin.length := by
    rw [hC]
    by_cases hb : bin = []
    · simp [hb]
    · simp [hb, le32_length]
      omega
  have hlen : (serializeGlb write d bin).length = 20 + P + C.length := by
    rw [hS]
    simp [le32_length]
    omega
  have m0 : readLe32 (serializeGlb write d bin) 0 = GLB_MAGIC := by
    rw [hS, readLe32_le32]
    decide
  have m12 : readLe32 (serializeGlb write d bin) 12 = P := by
    rw [hS]
    have hc : (le32 GLB_MAGIC ++ le32 GLB_VERSION ++ le32 T).length = 12 := by
      simp [le32_length]
    have := readLe32_mid (le32 GLB_MAGIC ++ le32 GLB_VERSION ++ le32 T)
      (le32 GLB_JSON_CHUNK ++ (J ++ C)) P 12 hc
    rw [Nat.mod_eq_of_lt hP] at this
    simpa [List.append_assoc] using this
  have m16 : readLe32 (serializeGlb write d bin) 16 = GLB_JSON_CHUNK := by
    rw [hS]
    have hc : (le32 GLB_MAGIC ++ le32 GLB_VERSION ++ le32 T ++
        le32 P).length = 16 := by simp [le32_length]
    have := readLe32_mid
      (le32 GLB_MAGIC ++ le32 GLB_VERSION ++ le32 T ++ le32 P)
      (J ++ C) GLB_JSON_CHUNK 16 hc
    simpa [List.append_assoc, GLB_JSON_CHUNK] using this
  have hdrop : (serializeGlb write d bin).drop 20 = J ++ C := by
    rw [hS]
    have hc : (le32 GLB_MAGIC ++ le32 GLB_VERSION ++ le32 T ++ le32 P ++
        le32 GLB_JSON_CHUNK).length = 20 := by simp [le32_length]
    have := @List.drop_left' _ _ (J ++ C) _ hc
    simpa [List.append_assoc] using this
  have hjson : ((serializeGlb write d bin).drop 20).take P = J := by
    rw [hdrop]
    exact List.take_left' rfl
  have hpjJ : pj J = some d := by
    rw [hJ, padJson]
    exact hpw d _
  by_cases hb : bin = []
  · have hC0 : C = [] := by simp [hC, hb]
    have hlen0 : (serializeGlb write d bin).length = 20 + P := by
      rw [hlen, hC0]
      simp
    rw [parseGlb]
    rw [if_neg (by omega), if_neg (by rw [m0]; simp), if_neg (by omega)]
    simp only [m12, m16]
    rw [if_neg (by simp), if_neg (by omega)]
    simp only [hjson, hpjJ]
    rw [if_neg (by omega)]
    simp [hb]
  · have hClen1 : C.length = 8 + bin.length := by rw [hClen, if_neg hb]
    have hlen1 : (serializeGlb write d bin).length = 28 + P + bin.length := by
      rw [hlen, hClen1]
      omega
    have mbt : readLe32 (serializeGlb write d bin) (20 + P + 4) =
        GLB_BIN_CHUNK := by
      rw [hS]
      have hc : (le32 GLB_MAGIC ++ le32 GLB_VERSION ++ le32 T ++ le32 P ++
          le32 GLB_JSON_CHUNK ++ J ++ le32 bin.length).length = 20 + P + 4 := by
        simp [le32_length]

        omega
      have := readLe32_mid
        (le32 GLB_MAGIC ++ le32 GLB_VERSION ++ le32 T ++ le32 P ++
          le32 GLB_JSON_CHUNK ++ J ++ le32 bin.length)
        bin GLB_BIN_CHUNK (20 + P + 4) hc
      rw [show (GLB_BIN_CHUNK % 4294967296) = GLB_BIN_CHUNK by rfl] at this
      rw [← this]
      congr 1
      simp [hC, hb, List.append_assoc]
    have mbl : readLe32 (serializeGlb write d bin) (20 + P) = bin.length := by
      rw [hS]
      have hc : (le32 GLB_MAGIC ++ le32 GLB_VERSION ++ le32 T ++ le32 P ++
          le32 GLB_JSON_CHUNK ++ J).length = 20 + P := by
        simp [le32_length]
        omega
      have := readLe32_mid
        (le32 GLB_MAGIC ++ le32 GLB_VERSION ++ le32 T ++ le32 P ++
          le32 GLB_JSON_CHUNK ++ J)
        (le32 GLB_BIN_CHUNK ++ bin) bin.length (20 + P) hc
      rw [Nat.mod_eq_of_lt hbin] at this
      rw [← this]
      congr 1
      simp [hC, hb, List.append_assoc]
    have hdropbin : (serializeGlb write d bin).drop (20 + P + 8) = bin := by
      rw [hS]
      have hc : (le32 GLB_MAGIC ++ le32 GLB_VERSION ++ le32 T ++ le32 P ++
          le32 GLB_JSON_CHUNK ++ J ++ le32 bin.length ++
          le32 GLB_BIN_CHUNK).length = 20 + P + 8 := by
        simp [le32_length]
        omega
      have := @List.drop_left' _ _ bin _ hc
      rw [← this]
      congr 1
      simp [hC, hb, List.append_assoc]
    rw [parseGlb]
    rw [if_neg (by omega), if_neg (by rw [m0]; simp), if_neg (by omega)]
    simp only [m12, m16]
    rw [if_neg (by simp), if_neg (by omega)]
    simp only [hjson, hpjJ]
    rw [if_pos (by omega), if_pos (by rw [mbt]), mbl, hdropbin,
      List.take_length]
    simp [hb]

/-- C1: for every container byte sequence produced by the serializer,
parsing it with parseGlb and re-serializing the resulting JSON document and
binary slice with serializeGlb yields a byte sequence identical to the input.
The JSON document type and its text codec (rapidjson) are abstract; `hpw`
states the codec round-trip (trailing ASCII spaces are whitespace to the
parser), and the two size bounds keep the 32-bit length fields exact. -/
theorem glb_roundtrip_serialize_parse {Doc : Type} (write : Doc → List Nat)
    (pj : List Nat → Option Doc)
    (hpw : ∀ (d : Doc) (n : Nat),
      pj (write d ++ List.replicate n 32) = some d)
    (d : Doc) (bin : List Nat)
    (hP : (padJson (write d)).length < 4294967296)
    (hbin : bin.length < 4294967296) :
    ∃ d2 ob, parseGlb pj (serializeGlb write d bin) = some (d2, ob) ∧
      serializeGlb write d2 (ob.getD []) = serializeGlb write d bin := by
  refine ⟨d, if bin = [] then none else some bin,
    parseGlb_serializeGlb write pj hpw d bin hP hbin, ?_⟩
  by_cases hb : bin = [] <;> simp [hb]

/-- A trivial concrete document type and JSON text codec used to witness the
codec-parameterized container theorems at concrete inputs: a document is
written as the single byte 0x6E and parsed back after stripping trailing
ASCII spaces, mimicking a whitespace-tolerant parser. -/
def unitWrite : Unit → List Nat := fun _ => [110]

/-- Strip trailing spaces, mimicking a whitespace-tolerant JSON parser. -/
def stripSpaces (l : List Nat) : List Nat :=
  (l.reverse.dropWhile (fun b => b == 32)).reverse

/-- Concrete JSON text parser matching `unitWrite` (witness infrastructure). -/
def unitParse (l : List Nat) : Option Unit :=
  if stripSpaces l = [110] then some () else none

theorem dropWhile_spaces (n : Nat) :
    List.dropWhile (fun b => b == 32) (List.replicate n 32 ++ [110]) =
      [110] := by
  induction n with
  | zero => simp [List.dropWhile]
  | succ k ih => simp [List.replicate_succ, List.dropWhile, ih]

theorem unitParse_pad (d : Unit) (n : Nat) :
    unitParse (unitWrite d ++ List.replicate n 32) = some d := by
  have hs : stripSpaces (unitWrite d ++ List.replicate n 32) = [110] := by
    simp [stripSpaces, unitWrite, List.reverse_append, dropWhile_spaces]
  simp [unitParse, hs]

/-- Witness for C1 at a concrete container: four binary bytes, unit codec. -/
theorem glb_roundtrip_witness :
    ∃ d2 ob,
      parseGlb unitParse (serializeGlb unitWrite () [1, 2, 3, 4]) =
        some (d2, ob) ∧
      serializeGlb unitWrite d2 (ob.getD []) =
        serializeGlb unitWrite () [1, 2, 3, 4] :=
  glb_roundtrip_serialize_parse unitWrite unitParse unitParse_pad ()
    [1, 2, 3, 4] (by decide) (by decide)

/-- C3 counterexample: the claim says the total-length field counts the
binary slice padded to a multiple of 4 with zero bytes, but serializeGlb
emits the slice as-is: for the one-byte slice [7] the emitted field is
12 + 8 + 4 + 8 + 1 = 33, not 12 + 8 + 4 + 8 + 4 = 36. -/
theorem serializeGlb_total_not_binpadded :
    readLe32 (serializeGlb unitWrite () [7]) 8 ≠
      12 + 8 + (padJson (unitWrite ())).length +
        (8 + ([7] ++ List.replicate ((4 - ([7] : List Nat).length % 4) % 4)
          (0 : Nat)).length) := by
  decide

/-- C3 (amended): the total-length field equals 12 + 8 + the JSON length
padded to a multiple of 4 with ASCII spaces, plus 8 + the binary slice's
exact (unpadded) length when the slice is non-empty; serializeGlb does not
pad the binary slice (its callers pad before calling). When the slice is
empty, the binary chunk including its 8-byte header is omitted entirely. -/
theorem serializeGlb_header_invariant {Doc : Type} (write : Doc → List Nat)
    (d : Doc) (bin : List Nat)
    (hsmall : 12 + 8 + (padJson (write d)).length +
      (if bin = [] then 0 else 8 + bin.length) < 4294967296) :
    readLe32 (serializeGlb write d bin) 8 =
      12 + 8 + (padJson (write d)).length +
        (if bin = [] then 0 else 8 + bin.length)
    ∧ (padJson (write d)).length % 4 = 0
    ∧ (∃ k, padJson (write d) = write d ++ List.replicate k 32)
    ∧ (bin = [] → serializeGlb write d bin =
        le32 GLB_MAGIC ++ le32 GLB_VERSION ++
          le32 (12 + 8 + (padJson (write d)).length) ++
          le32 (padJson (write d)).length ++ le32 GLB_JSON_CHUNK ++
          padJson (write d))
    ∧ (bin ≠ [] → (serializeGlb write d bin).length =
        12 + 8 + (padJson (write d)).length + 8 + bin.length) := by
  set J := padJson (write d) with hJ
  set P := J.length with hPdef
  have m8 : readLe32 (serializeGlb write d bin) 8 =
      12 + 8 + P + (if bin = [] then 0 else 8 + bin.length) := by
    have hS : serializeGlb write d bin =
        (le32 GLB_MAGIC ++ le32 GLB_VERSION) ++
          (le32 (12 + 8 + P + (if bin ≠ [] then 8 + bin.length else 0)) ++
            (le32 P ++ le32 GLB_JSON_CHUNK ++ J ++
              (if bin ≠ [] then le32 bin.length ++ le32 GLB_BIN_CHUNK ++ bin
               else []))) := by
      simp only [serializeGlb, hJ, List.append_assoc]
    have hc : (le32 GLB_MAGIC ++ le32 GLB_VERSION).length = 8 := by
      simp [le32_length]
    rw [hS, readLe32_mid _ _ _ 8 hc]
    by_cases hb : bin = []
    · rw [if_neg (by simp [hb]), if_pos hb]
      simp only [Nat.add_zero]
      exact Nat.mod_eq_of_lt (by rw [if_pos hb] at hsmall; omega)
    · rw [if_pos hb, if_neg hb]
      exact Nat.mod_eq_of_lt (by rw [if_neg hb] at hsmall; omega)
  refine ⟨m8, padJson_mod _, ⟨_, rfl⟩, ?_, ?_⟩
  · intro hb
    simp only [serializeGlb, hJ, hb]
    simp
  · intro hb
    have hlen2 : (serializeGlb write d bin).length =
        20 + P + (8 + bin.length) := by
      simp only [serializeGlb, hJ]
      rw [if_pos hb, if_pos hb]
      simp [le32_length, hPdef, hJ]
      omega
    rw [hlen2]
    omega

/-- Witness for C3 (amended) at a concrete input: empty and non-empty slices. -/
theorem serializeGlb_header_invariant_witness :
    readLe32 (serializeGlb unitWrite () [7]) 8 =
      12 + 8 + (padJson (unitWrite ())).length + (8 + 1) :=
  ((serializeGlb_header_invariant unitWrite () [7] (by decide)).1).trans
    (by decide)

/-- C4: parseGlb fails iff the input has fewer than 12 bytes, or the magic
mismatches, or the JSON chunk header is truncated (fewer than 20 bytes), or
the first chunk's type tag is not the JSON tag, or the JSON chunk bytes run
past the end of the input, or the JSON chunk content is not well-formed
(the abstract parser `pj` rejects it); and a missing trailing chunk header or
a trailing chunk with a non-BIN type tag is not an error: the parse succeeds
with an absent binary region. -/
theorem parseGlb_error_conditions {Doc : Type} (pj : List Nat → Option Doc)
    (data : List Nat) :
    (parseGlb pj data = none ↔
      data.length < 12 ∨ readLe32 data 0 ≠ GLB_MAGIC ∨ data.length < 20 ∨
      readLe32 data 16 ≠ GLB_JSON_CHUNK ∨
      20 + readLe32 data 12 > data.length ∨
      pj ((data.drop 20).take (readLe32 data 12)) = none)
    ∧ (∀ (d : Doc) (ob : Option (List Nat)),
        parseGlb pj data = some (d, ob) →
        (data.length < 20 + readLe32 data 12 + 8 ∨
          readLe32 data (20 + readLe32 data 12 + 4) ≠ GLB_BIN_CHUNK) →
        ob = none) := by
  rw [parseGlb]
  by_cases h1 : data.length < 12
  · simp [h1]
  by_cases h2 : readLe32 data 0 ≠ GLB_MAGIC
  · simp [h1, h2]
  by_cases h3 : data.length < 20
  · simp [h1, h2, h3]
  by_cases h4 : readLe32 data 16 ≠ GLB_JSON_CHUNK
  · simp [h1, h2, h3, h4]
  by_cases h5 : 20 + readLe32 data 12 > data.length
  · simp [h1, h2, h3, h4, h5]
  rw [if_neg h1, if_neg h2, if_neg h3, if_neg h4, if_neg h5]
  cases hpj : pj ((data.drop 20).take (readLe32 data 12)) with
  | none => simp [h1, h2, h3, h4, h5, hpj]
  | some d0 =>
    constructor
    · simp [h1, h2, h3, h4, h5, hpj]
    · intro d ob hsome hbad
      simp only [hpj, Option.some.injEq, Prod.mk.injEq] at hsome
      rcases hbad with hb1 | hb2
      · rw [← hsome.2, if_neg (by omega)]
      · by_cases hle : 20 + readLe32 data 12 + 8 ≤ data.length
        · rw [← hsome.2, if_pos hle, if_neg hb2]
        · rw [← hsome.2, if_neg hle]

/-- Witness for C4: the empty input fails (fewer than 12 bytes), and a
well-formed container followed by a mistyped trailing chunk parses
successfully with an absent binary region. -/
theorem parseGlb_error_conditions_witness :
    parseGlb unitParse ([] : List Nat) = none ∧
    (none : Option (List Nat)) = none :=
  ⟨(parseGlb_error_conditions unitParse []).1.mpr (Or.inl (by decide)),
    (parseGlb_error_conditions unitParse
        (serializeGlb unitWrite () [] ++ le32 4 ++ le32 999 ++
          [9, 9, 9, 9])).2
      () none (by decide) (Or.inr (by decide))⟩

/-! ## JSON scene-graph model

rapidjson documents as mutated by the injectors. rapidjson objects keep
insertion order and `AddMember` appends without checking for duplicates;
`HasMember`/`operator[]` find the first member with the given name.
`operator[]` on a missing member and `PushBack` on a non-array are undefined
behaviour in rapidjson; the model makes those cases no-ops, and every theorem
below only exercises them under well-formedness hypotheses. -/

/-- rapidjson values. Numbers are modelled as `ℚ` (exact arithmetic in place
of doubles; floating-point rounding is outside the scope of the claims). -/
inductive Json : Type where
  | null : Json
  | bool (b : Bool) : Json
  | num (q : ℚ) : Json
  | str (s : String) : Json
  | arr (elems : List Json) : Json
  | obj (fields : List (String × Json)) : Json

/-- First member with the given name (rapidjson HasMember / operator[]). -/
def lookupField (fields : List (String × Json)) (k : String) : Option Json :=
  match fields with
  | [] => none
  | (k2, v) :: rest => if k2 = k then some v else lookupField rest k

/-- Member access on a value (none when absent or not an object). -/
def getMember (j : Json) (k : String) : Option Json :=
  match j with
  | Json.obj fields => lookupField fields k
  | _ => none

/-- rapidjson HasMember. -/
def hasMember (j : Json) (k : String) : Bool :=
  (getMember j k).isSome

/-- rapidjson AddMember: appends a member without de-duplication. -/
def addMember (j : Json) (k : String) (v : Json) : Json :=
  match j with
  | Json.obj fields => Json.obj (fields ++ [(k, v)])
  | _ => j

/-- Replace the value of the first member with the given name. -/
def setFirst (fields : List (String × Json)) (k : String)
    (f : Json → Json) : List (String × Json) :=
  match fields with
  | [] => []
  | (k2, v) :: rest =>
    if k2 = k then (k2, f v) :: rest else (k2, v) :: setFirst rest k f

/-- In-place mutation through `operator[](name)`: modify the first member
with the given name; no-op when absent or not an object (that case is
undefined behaviour in rapidjson and is excluded by hypotheses). -/
def modMember (j : Json) (k : String) (f : Json → Json) : Json :=
  match j with
  | Json.obj fields =>
    match lookupField fields k with
    | some _ => Json.obj (setFirst fields k f)
    | none => j
  | _ => j

/-- rapidjson PushBack on an array value; no-op on non-arrays (UB there). -/
def pushElem (j : Json) (v : Json) : Json :=
  match j with
  | Json.arr xs => Json.arr (xs ++ [v])
  | _ => j

/-- rapidjson Size() of an array value (0 otherwise). -/
def arrSize (j : Json) : Nat :=
  match j with
  | Json.arr xs => xs.length
  | _ => 0

/-- True when the value is an array (rapidjson IsArray). -/
def isArr (j : Json) : Bool :=
  match j with
  | Json.arr _ => true
  | _ => false

/-- In-place mutation of element `i` of an array value (`meshes[i]` etc.);
no-op out of range or on non-arrays. -/
def modAt (j : Json) (i : Nat) (f : Json → Json) : Json :=
  match j with
  | Json.arr xs => Json.arr (xs.set i (f (xs.getD i Json.null)))
  | _ => j

/-! ## Face model (interface offered by the OCCT geometry kernel)

What `BRepAdaptor_Surface`, `BRepTools::UVBounds` and the `gp_*` surface
accessors report for one face. Only the fields the extraction code reads are
modelled; `Standard_Real` is `ℚ`. -/

/-- Surface classification (`GeomAbs_SurfaceType`); every non-analytic kind
collapses to `other` since `getSurfaceTypeName` maps them all to nullptr. -/
inductive SurfaceType : Type where
  | plane | cylinder | cone | sphere | torus | other
deriving DecidableEq

/-- Kernel-reported data for one face. -/
structure Face where
  isNull : Bool := false
  surfType : SurfaceType := SurfaceType.other
  locX : ℚ := 0
  locY : ℚ := 0
  locZ : ℚ := 0
  dirX : ℚ := 0
  dirY : ℚ := 0
  dirZ : ℚ := 1
  xDirX : ℚ := 1
  xDirY : ℚ := 0
  xDirZ : ℚ := 0
  apexX : ℚ := 0
  apexY : ℚ := 0
  apexZ : ℚ := 0
  radius : ℚ := 1
  semiAngle : ℚ := 0
  refRadius : ℚ := 1
  majorRadius : ℚ := 2
  minorRadius : ℚ := 1
  uMin : ℚ := 0
  uMax : ℚ := 1
  vMin : ℚ := 0
  vMax : ℚ := 1
deriving DecidableEq

/-- getSurfaceTypeName from primitives.hpp (identical in convert.hpp):
type name for a surface type, or none (nullptr) if not analytical. -/
def getSurfaceTypeName (surfType : SurfaceType) : Option String :=
  match surfType with
  | SurfaceType.plane => some "plane"
  | SurfaceType.cylinder => some "cylinder"
  | SurfaceType.cone => some "cone"
  | SurfaceType.sphere => some "sphere"
  | SurfaceType.torus => some "torus"
  | SurfaceType.other => none

/-- addVec3 from extras.hpp. -/
def addVec3 (o : Json) (name : String) (x y z : ℚ) : Json :=
  addMember o name (Json.arr [Json.num x, Json.num y, Json.num z])

/-- addBounds from extras.hpp. -/
def addBounds (o : Json) (name : String) (lo hi : ℚ) : Json :=
  addMember o name (Json.arr [Json.num lo, Json.num hi])

/-- The filter test of extractFacePrimitive:
`typeName == nullptr || allowedTypes.count(typeName) == 0`. -/
def filteredOut (typeName : Option String) (allowedTypes : List String) :
    Prop :=
  match typeName with
  | none => True
  | some t => t ∉ allowedTypes

instance (t : Option String) (a : List String) : Decidable (filteredOut t a) := by
  unfold filteredOut
  cases t <;> infer_instance

/-- extractFacePrimitive from primitives.hpp: append exactly one entry
(object or null) for the face to the faces array. `allowedTypes` models the
`std::set<std::string>` filter, `lengthUnit` the scale factor to metres. -/
def extractFacePrimitive (face : Face) (faceIndex : Int)
    (facesArray : List Json) (allowedTypes : List String)
    (lengthUnit : ℚ) : List Json :=
  if face.isNull then facesArray ++ [Json.null]
  else
    let typeName := getSurfaceTypeName face.surfType
    if allowedTypes ≠ [] ∧ filteredOut typeName allowedTypes then
      facesArray ++ [Json.null]
    else
      let o0 := addMember (Json.obj []) "face_index"
        (Json.num (faceIndex : ℚ))
      match face.surfType with
      | SurfaceType.plane =>
        let o := addMember o0 "type" (Json.str "plane")
        let o := addVec3 o "origin" (face.locX * lengthUnit)
          (face.locY * lengthUnit) (face.locZ * lengthUnit)
        let o := addVec3 o "normal" face.dirX face.dirY face.dirZ
        let o := addVec3 o "x_dir" face.xDirX face.xDirY face.xDirZ
        let o := addBounds o "extent_x" (face.uMin * lengthUnit)
          (face.uMax * lengthUnit)
        let o := addBounds o "extent_y" (face.vMin * lengthUnit)
          (face.vMax * lengthUnit)
        facesArray ++ [o]
      | SurfaceType.cylinder =>
        let o := addMember o0 "type" (Json.str "cylinder")
        let o := addVec3 o "origin" (face.locX * lengthUnit)
          (face.locY * lengthUnit) (face.locZ * lengthUnit)
        let o := addVec3 o "axis" face.dirX face.dirY face.dirZ
        let o := addMember o "radius" (Json.num (face.radius * lengthUnit))
        let o := addBounds o "extent_angle" face.uMin face.uMax
        let o := addBounds o "extent_height" (face.vMin * lengthUnit)
          (face.vMax * lengthUnit)
        facesArray ++ [o]
      | SurfaceType.cone =>
        let o := addMember o0 "type" (Json.str "cone")
        let o := addVec3 o "apex" (face.apexX * lengthUnit)
          (face.apexY * lengthUnit) (face.apexZ * lengthUnit)
        let o := addVec3 o "axis" face.dirX face.dirY face.dirZ
        let o := addMember o "semi_angle" (Json.num face.semiAngle)
        let o := addMember o "ref_radius"
          (Json.num (face.refRadius * lengthUnit))
        let o := addBounds o "extent_angle" face.uMin face.uMax
        let o := addBounds o "extent_distance" (face.vMin * lengthUnit)
          (face.vMax * lengthUnit)
        facesArray ++ [o]
      | SurfaceType.sphere =>
        let o := addMember o0 "type" (Json.str "sphere")
        let o := addVec3 o "center" (face.locX * lengthUnit)
          (face.locY * lengthUnit) (face.locZ * lengthUnit)
        let o := addMember o "radius" (Json.num (face.radius * lengthUnit))
        let o := addBounds o "extent_longitude" face.uMin face.uMax
        let o := addBounds o "extent_latitude" face.vMin face.vMax
        facesArray ++ [o]
      | SurfaceType.torus =>
        let o := addMember o0 "type" (Json.str "torus")
        let o := addVec3 o "center" (face.locX * lengthUnit)
          (face.locY * lengthUnit) (face.locZ * lengthUnit)
        let o := addVec3 o "axis" face.dirX face.dirY face.dirZ
        let o := addMember o "major_radius"
          (Json.num (face.majorRadius * lengthUnit))
        let o := addMember o "minor_radius"
          (Json.num (face.minorRadius * lengthUnit))
        let o := addBounds o "extent_major_angle" face.uMin face.uMax
        let o := addBounds o "extent_minor_angle" face.vMin face.vMax
        facesArray ++ [o]
      | SurfaceType.other => facesArray ++ [Json.null]

/-- The `TopExp_Explorer(shape, TopAbs_FACE)` loop of extractAllPrimitives:
walk the faces with a running index. -/
def extractAllPrimitivesAux (faces : List Face) (faceIndex : Int)
    (facesArray : List Json) (allowedTypes : List String)
    (lengthUnit : ℚ) : List Json :=
  match faces with
  | [] => facesArray
  | f :: rest =>
    extractAllPrimitivesAux rest (faceIndex + 1)
      (extractFacePrimitive f faceIndex facesArray allowedTypes lengthUnit)
      allowedTypes lengthUnit

/-- extractAllPrimitives from primitives.hpp: one entry per face of the
shape, in traversal order; a shape is modelled as its kernel-reported face
list. -/
def extractAllPrimitives (faces : List Face) (allowedTypes : List String)
    (lengthUnit : ℚ) : List Json :=
  extractAllPrimitivesAux faces 0 [] allowedTypes lengthUnit

/-- extractFacePrimitive from the legacy convert.hpp snapshot (still compiled
and reachable through the step_to_glb compatibility entry points): filtered
faces are skipped outright (no placeholder entry), there is no null-face
check, u/v bounds are emitted unscaled before the type switch, there is no
length-unit parameter, and a non-analytic face yields an object whose "type"
member is null rather than a null entry. -/
def extractFacePrimitiveLegacy (face : Face) (faceIndex : Int)
    (facesArray : List Json) (allowedTypes : List String) : List Json :=
  let typeName := getSurfaceTypeName face.surfType
  if allowedTypes ≠ [] ∧ filteredOut typeName allowedTypes then
    facesArray
  else
    let o0 := addMember (Json.obj []) "face_index" (Json.num (faceIndex : ℚ))
    let o0 := addBounds o0 "u_bounds" face.uMin face.uMax
    let o0 := addBounds o0 "v_bounds" face.vMin face.vMax
    match face.surfType with
    | SurfaceType.plane =>
      let o := addMember o0 "type" (Json.str "plane")
      let o := addVec3 o "origin" face.locX face.locY face.locZ
      let o := addVec3 o "normal" face.dirX face.dirY face.dirZ
      let o := addVec3 o "x_dir" face.xDirX face.xDirY face.xDirZ
      facesArray ++ [o]
    | SurfaceType.cylinder =>
      let o := addMember o0 "type" (Json.str "cylinder")
      let o := addVec3 o "origin" face.locX face.locY face.locZ
      let o := addVec3 o "axis" face.dirX face.dirY face.dirZ
      let o := addMember o "radius" (Json.num face.radius)
      facesArray ++ [o]
    | SurfaceType.cone =>
      let o := addMember o0 "type" (Json.str "cone")
      let o := addVec3 o "apex" face.apexX face.apexY face.apexZ
      let o := addVec3 o "axis" face.dirX face.dirY face.dirZ
      let o := addMember o "semi_angle" (Json.num face.semiAngle)
      let o := addMember o "ref_radius" (Json.num face.refRadius)
      facesArray ++ [o]
    | SurfaceType.sphere =>
      let o := addMember o0 "type" (Json.str "sphere")
      let o := addVec3 o "center" face.locX face.locY face.locZ
      let o := addMember o "radius" (Json.num face.radius)
      facesArray ++ [o]
    | SurfaceType.torus =>
      let o := addMember o0 "type" (Json.str "torus")
      let o := addVec3 o "center" face.locX face.locY face.locZ
      let o := addVec3 o "axis" face.dirX face.dirY face.dirZ
      let o := addMember o "major_radius" (Json.num face.majorRadius)
      let o := addMember o "minor_radius" (Json.num face.minorRadius)
      facesArray ++ [o]
    | SurfaceType.other =>
      facesArray ++ [addMember o0 "type" Json.null]

/-- Face loop of the legacy extractAllPrimitives (convert.hpp). -/
def extractAllPrimitivesLegacyAux (faces : List Face) (faceIndex : Int)
    (facesArray : List Json) (allowedTypes : List String) : List Json :=
  match faces with
  | [] => facesArray
  | f :: rest =>
    extractAllPrimitivesLegacyAux rest (faceIndex + 1)
      (extractFacePrimitiveLegacy f faceIndex facesArray allowedTypes)
      allowedTypes

/-- extractAllPrimitives from the legacy convert.hpp snapshot. -/
def extractAllPrimitivesLegacy (faces : List Face)
    (allowedTypes : List String) : List Json :=
  extractAllPrimitivesLegacyAux faces 0 [] allowedTypes

/-- extractFacePrimitive appends to the accumulator it is given. -/
theorem extractFacePrimitive_append (face : Face) (faceIndex : Int)
    (acc : List Json) (allowedTypes : List String) (u : ℚ) :
    extractFacePrimitive face faceIndex acc allowedTypes u =
      acc ++ extractFacePrimitive face faceIndex [] allowedTypes u := by
  unfold extractFacePrimitive
  by_cases hn : face.isNull
  · simp [hn]
  · simp only [hn, if_false, Bool.false_eq_true]
    by_cases hf : allowedTypes ≠ [] ∧
        filteredOut (getSurfaceTypeName face.surfType) allowedTypes
    · simp [hf]
    · simp only [hf, if_false]
      cases face.surfType <;> simp

/-- extractFacePrimitive appends exactly one entry, which is either null or
an object whose first member is "face_index" with the given index. -/
theorem extractFacePrimitive_entry (face : Face) (faceIndex : Int)
    (allowedTypes : List String) (u : ℚ) :
    ∃ e, extractFacePrimitive face faceIndex [] allowedTypes u = [e] ∧
      (e = Json.null ∨ ∃ fs, e = Json.obj fs ∧
        lookupField fs "face_index" = some (Json.num (faceIndex : ℚ))) := by
  unfold extractFacePrimitive
  by_cases hn : face.isNull
  · exact ⟨Json.null, by simp [hn], Or.inl rfl⟩
  · simp only [hn, if_false, Bool.false_eq_true]
    by_cases hf : allowedTypes ≠ [] ∧
        filteredOut (getSurfaceTypeName face.surfType) allowedTypes
    · exact ⟨Json.null, by simp [hf], Or.inl rfl⟩
    · simp only [hf, if_false]
      cases face.surfType
      all_goals
        first
        | exact ⟨Json.null, rfl, Or.inl rfl⟩
        | exact ⟨_, rfl, Or.inr ⟨_, rfl, rfl⟩⟩

/-- Characterization of the traversal loop. -/
theorem extractAllPrimitivesAux_spec (allowedTypes : List String) (u : ℚ) :
    ∀ (faces : List Face) (faceIndex : Int) (acc : List Json),
      (extractAllPrimitivesAux faces faceIndex acc allowedTypes u).length =
        acc.length + faces.length ∧
      (∀ i, i < acc.length →
        (extractAllPrimitivesAux faces faceIndex acc allowedTypes u).getD i
          Json.null = acc.getD i Json.null) ∧
      (∀ k, k < faces.length →
        (extractAllPrimitivesAux faces faceIndex acc allowedTypes u).getD
            (acc.length + k) Json.null = Json.null ∨
        ∃ fs,
          (extractAllPrimitivesAux faces faceIndex acc allowedTypes u).getD
            (acc.length + k) Json.null = Json.obj fs ∧
          lookupField fs "face_index" =
            some (Json.num ((faceIndex + k : Int) : ℚ))) := by
  intro faces
  induction faces with
  | nil =>
    intro faceIndex acc
    refine ⟨by simp [extractAllPrimitivesAux], ?_, ?_⟩
    · intro i _
      rfl
    · intro k hk
      simp at hk
  | cons f rest ih =>
    intro faceIndex acc
    obtain ⟨e, he, hcase⟩ :=
      extractFacePrimitive_entry f faceIndex allowedTypes u
    have hstep : extractAllPrimitivesAux (f :: rest) faceIndex acc
        allowedTypes u =
        extractAllPrimitivesAux rest (faceIndex + 1) (acc ++ [e])
          allowedTypes u := by
      rw [extractAllPrimitivesAux, extractFacePrimitive_append, he]
    obtain ⟨ihlen, ihpre, ihnew⟩ := ih (faceIndex + 1) (acc ++ [e])
    refine ⟨?_, ?_, ?_⟩
    · rw [hstep, ihlen]
      simp
      omega
    · intro i hi
      rw [hstep, ihpre i (by simp; omega)]
      simp [List.getD, List.getElem?_append, hi]
    · intro k hk
      cases k with
      | zero =>
        have hself := ihpre acc.length (by simp)
        rw [hstep, Nat.add_zero, hself]
        have hgete : (acc ++ [e]).getD acc.length Json.null = e := by
          simp [List.getD_append_right]
        rw [hgete]
        rcases hcase with hnull | ⟨fs, hfs, hlk⟩
        · exact Or.inl hnull
        · refine Or.inr ⟨fs, hfs, ?_⟩
          rw [hlk]
          norm_num
      | succ k2 =>
        have hk2 : k2 < rest.length := by simpa using hk
        have := ihnew k2 hk2
        have haddr : acc.length + (k2 + 1) = (acc ++ [e]).length + k2 := by
          simp
          omega
        rw [hstep, haddr]
        rcases this with hnull | ⟨fs, hfs, hlk⟩
        · exact Or.inl hnull
        · refine Or.inr ⟨fs, hfs, ?_⟩
          rw [hlk]
          congr 2
          push_cast
          ring

/-- C2 (amended, current implementation): for every shape (face list), every
allow-list and every length unit, the primitives.hpp extractAllPrimitives
emits exactly one entry per face in traversal order, and the entry at
position i is either null or an object whose "face_index" member equals i;
filtering never removes or shifts array slots. -/
theorem extractAllPrimitives_index_preserving (faces : List Face)
    (allowedTypes : List String) (u : ℚ) :
    (extractAllPrimitives faces allowedTypes u).length = faces.length ∧
    ∀ k, k < faces.length →
      (extractAllPrimitives faces allowedTypes u).getD k Json.null =
        Json.null ∨
      ∃ fs, (extractAllPrimitives faces allowedTypes u).getD k Json.null =
          Json.obj fs ∧
        lookupField fs "face_index" = some (Json.num (k : ℚ)) := by
  obtain ⟨hlen, _, hnew⟩ :=
    extractAllPrimitivesAux_spec allowedTypes u faces 0 []
  refine ⟨by simpa using hlen, ?_⟩
  intro k hk
  have := hnew k hk
  simpa using this

/-- Witness for C2 (amended) at a concrete shape: plane, non-analytic,
cylinder with allow-list {"plane"} gives [object(face_index 0), null, null]. -/
theorem extractAllPrimitives_index_preserving_witness :
    (extractAllPrimitives
        [{ surfType := SurfaceType.plane }, { surfType := SurfaceType.other },
          { surfType := SurfaceType.cylinder }] ["plane"] 1).length = 3 ∧
    ((extractAllPrimitives
        [{ surfType := SurfaceType.plane }, { surfType := SurfaceType.other },
          { surfType := SurfaceType.cylinder }] ["plane"] 1).getD 1
      Json.null = Json.null ∨
    ∃ fs, (extractAllPrimitives
        [{ surfType := SurfaceType.plane }, { surfType := SurfaceType.other },
          { surfType := SurfaceType.cylinder }] ["plane"] 1).getD 1
        Json.null = Json.obj fs ∧
      lookupField fs "face_index" = some (Json.num ((1 : Nat) : ℚ))) :=
  ⟨(extractAllPrimitives_index_preserving
      [{ surfType := SurfaceType.plane }, { surfType := SurfaceType.other },
        { surfType := SurfaceType.cylinder }] ["plane"] 1).1,
    (extractAllPrimitives_index_preserving
      [{ surfType := SurfaceType.plane }, { surfType := SurfaceType.other },
        { surfType := SurfaceType.cylinder }] ["plane"] 1).2 1
      (by decide)⟩

/-- C2 counterexample: the legacy convert.hpp extractAllPrimitives (reachable
through step_to_glb) does not emit one entry per face: for the shape
[plane, non-analytic, cylinder] with allow-list {"plane"} it emits a
single-entry array, removing the filtered slots. -/
theorem extractAllPrimitivesLegacy_drops_slots :
    (extractAllPrimitivesLegacy
        [{ surfType := SurfaceType.plane }, { surfType := SurfaceType.other },
          { surfType := SurfaceType.cylinder }] ["plane"]).length ≠
      ([{ surfType := SurfaceType.plane }, { surfType := SurfaceType.other },
          { surfType := SurfaceType.cylinder }] : List Face).length := by
  decide

/-! ## Linear/angular scaling discipline (claim C5)

The claim designates which descriptor members are linear quantities (scaled
by the length-unit factor) and which are angular (unscaled). The designation
below follows the claim's list; the theorem relates the extraction at an
arbitrary scale factor to the extraction at factor 1 (the kernel-reported
values, since multiplying by 1 is the identity). -/

/-- Keys of linear quantities per the specification: origin/center/apex
coordinates, radii, ref_radius, major and minor radius, and parametric
bounds in length-type directions. -/
def isLinearKey (k : String) : Bool :=
  k == "origin" || k == "center" || k == "apex" || k == "radius" ||
    k == "ref_radius" || k == "major_radius" || k == "minor_radius" ||
    k == "extent_x" || k == "extent_y" || k == "extent_height" ||
    k == "extent_distance"

/-- Scale a numeric value, or every numeric element of an array, by `u`. -/
def scaleVal (u : ℚ) (j : Json) : Json :=
  match j with
  | Json.num q => Json.num (q * u)
  | Json.arr xs => Json.arr (xs.map fun x =>
      match x with
      | Json.num q => Json.num (q * u)
      | y => y)
  | _ => j

/-- Scale the designated linear members of a face descriptor by `u`,
leaving angular members, the type tag and the face index untouched. Null
entries stay null. -/
def scaleEntry (u : ℚ) (j : Json) : Json :=
  match j with
  | Json.obj fs => Json.obj (fs.map fun kv =>
      if isLinearKey kv.1 then (kv.1, scaleVal u kv.2) else kv)
  | _ => j

/-- C5: for every face whose descriptor is emitted and every length-unit
scale factor, the emitted descriptor equals the descriptor of the
kernel-reported values (extraction at factor 1) with exactly the designated
linear quantities multiplied by the factor and the angular quantities
(semi_angle and angle-type parametric bounds) left unscaled. -/
theorem extractFacePrimitive_scaling (face : Face) (faceIndex : Int)
    (allowedTypes : List String) (u : ℚ) :
    extractFacePrimitive face faceIndex [] allowedTypes u =
      (extractFacePrimitive face faceIndex [] allowedTypes 1).map
        (scaleEntry u) := by
  unfold extractFacePrimitive
  by_cases hn : face.isNull
  · simp [hn, scaleEntry]
  · simp only [hn, if_false, Bool.false_eq_true]
    by_cases hf : allowedTypes ≠ [] ∧
        filteredOut (getSurfaceTypeName face.surfType) allowedTypes
    · simp [hf, scaleEntry]
    · simp only [hf, if_false]
      cases face.surfType <;>
        simp [scaleEntry, scaleVal, isLinearKey, addMember, addVec3,
          addBounds, mul_one]

/-! ## Extension injectors (extras.hpp)

The injectors mutate the parsed JSON tree. The rapidjson parse/serialize
wrappers around them are the abstract codec of the container section; the
definitions below are the document-mutation cores, with `Json` in place of
`rapidjson::Document`. -/

/-- Vendor extension name constant from extras.hpp. -/
def EXTENSION_NAME : String := "TM_brep_faces"

/-- Member value, defaulting to null (used only under presence hypotheses). -/
def getMemberD (j : Json) (k : String) : Json :=
  (getMember j k).getD Json.null

/-- `HasMember(k) && j[k].IsArray()`. -/
def hasArrayMember (j : Json) (k : String) : Bool :=
  match getMember j k with
  | some (Json.arr _) => true
  | _ => false

/-- `HasMember(k) && j[k].IsArray() && j[k].Size() > 0`. -/
def hasArrayMemberNonempty (j : Json) (k : String) : Bool :=
  match getMember j k with
  | some (Json.arr (_ :: _)) => true
  | _ => false

/-- Map over a rapidjson array value (`for (auto &x : v.GetArray())` with
in-place mutation of every element); no-op on non-arrays. -/
def mapArr (j : Json) (f : Json → Json) : Json :=
  match j with
  | Json.arr xs => Json.arr (xs.map f)
  | _ => j

/-- The scan of extensionsUsed for the extension name
(`v.IsString() && v == EXTENSION_NAME`); false on a non-array (GetArray on a
non-array is UB in rapidjson, excluded by hypotheses). -/
def extNameFound (j : Json) : Bool :=
  match j with
  | Json.arr xs => xs.any (fun v =>
      match v with
      | Json.str s => s == EXTENSION_NAME
      | _ => false)
  | _ => false

/-- ensureExtensionUsed from injectExtrasIntoGlbData; the inline
extensionsUsed blocks of injectBrepExtensionIntoJson and
injectBrepExtensionWithFaceData are token-for-token the same logic. -/
def ensureExtensionUsed (doc : Json) : Json :=
  let doc2 := if hasMember doc "extensionsUsed" then doc
    else addMember doc "extensionsUsed" (Json.arr [])
  if extNameFound (getMemberD doc2 "extensionsUsed") then doc2
  else modMember doc2 "extensionsUsed"
    (fun e => pushElem e (Json.str EXTENSION_NAME))

/-- Number of occurrences of the extension name among the string elements of
the (first) extensionsUsed member. -/
def extUsedCount (doc : Json) : Nat :=
  match getMember doc "extensionsUsed" with
  | some (Json.arr xs) =>
    (xs.filter (fun v =>
      match v with
      | Json.str s => s == EXTENSION_NAME
      | _ => false)).length
  | _ => 0

/-- ensureMeshCascadio from extras.hpp (shared by injectExtrasIntoGlbData and
injectBrepExtensionWithFaceData; injectBrepExtensionIntoJson open-codes the
same two checks). -/
def ensureMeshCascadio (mesh : Json) : Json :=
  let mesh2 := if hasMember mesh "extras" then mesh
    else addMember mesh "extras" (Json.obj [])
  if hasMember (getMemberD mesh2 "extras") "cascadio" then mesh2
  else modMember mesh2 "extras"
    (fun ex => addMember ex "cascadio" (Json.obj []))

/-- `mesh["extras"]["cascadio"].AddMember("materials", copy)`. -/
def addMeshMaterials (mesh : Json) (m : Json) : Json :=
  modMember mesh "extras" (fun ex => modMember ex "cascadio"
    (fun c => addMember c "materials" m))

/-- FaceTriangleData from extras.hpp: data collected per face during GLB
export via the triangulation callback. -/
structure FaceTriangleData where
  faceIndex : Int
  triStart : Int
  triCount : Int
  face : Face
deriving DecidableEq

/-- The faces-array build loop shared by both injectors:
`for (const auto &fd : faceData) extractFacePrimitive(fd.face, fd.faceIndex, ...)`. -/
def facesArrayOf (faceData : List FaceTriangleData)
    (allowedTypes : List String) (u : ℚ) : List Json :=
  faceData.foldl
    (fun acc fd =>
      extractFacePrimitive fd.face fd.faceIndex acc allowedTypes u) []

/-- `(x + 3) & ~3` computed in `uint32_t` arithmetic. -/
def alignUp4u32 (x : Nat) : Nat :=
  ((x + 3) % 4294967296) / 4 * 4

/-- `doc["buffers"][0]["byteLength"].SetUint(newBinLength)` guarded by
`HasMember && IsArray && Size() > 0` (identical block in both injectors). -/
def stageUpdateBufferLength (doc : Json) (newBinLength : Nat) : Json :=
  if hasArrayMemberNonempty doc "buffers" then
    modMember doc "buffers" (fun b => modAt b 0 (fun b0 =>
      modMember b0 "byteLength" (fun _ => Json.num (newBinLength : ℚ))))
  else doc

/-- The bufferView object pushed for the face indices. -/
def faceIndicesBufferView (offset byteLen : Nat) : Json :=
  Json.obj
    [("buffer", Json.num 0),
     ("byteOffset", Json.num (offset : ℚ)),
     ("byteLength", Json.num (byteLen : ℚ))]

/-- The accessor object pushed for the face indices (componentType 5125 =
UNSIGNED_INT, type SCALAR). -/
def faceIndicesAccessor (bvId count : Nat) : Json :=
  Json.obj
    [("bufferView", Json.num (bvId : ℚ)),
     ("byteOffset", Json.num 0),
     ("componentType", Json.num 5125),
     ("count", Json.num (count : ℚ)),
     ("type", Json.str "SCALAR")]

/-- The primitive extension object `{faceIndices, faces}` built by both
injectBrepExtensionIntoJson and injectBrepExtensionWithFaceData. -/
def brepExtensionObj (accId : Nat) (facesArray : List Json) : Json :=
  Json.obj
    [("faceIndices", Json.num (accId : ℚ)),
     ("faces", Json.arr facesArray)]

/-- Streaming bufferViews block: the id is computed under
`HasMember && IsArray` but the push is guarded by `HasMember` alone. -/
def streamStageBufferViews (d : Json) (offset byteLen : Nat) : Json :=
  if hasMember d "bufferViews" then
    modMember d "bufferViews"
      (fun bvs => pushElem bvs (faceIndicesBufferView offset byteLen))
  else d

/-- Streaming accessors block (same guard asymmetry as the bufferViews
block; the count is `faceIndicesBytes / 4`). -/
def streamStageAccessors (d : Json) (bvId byteLen : Nat) : Json :=
  if hasMember d "accessors" then
    modMember d "accessors"
      (fun accs => pushElem accs (faceIndicesAccessor bvId (byteLen / 4)))
  else d

/-- The ensure-extensions step shared by both attach blocks. -/
def ensurePrimExtensions (prim : Json) : Json :=
  if hasMember prim "extensions" then prim
  else addMember prim "extensions" (Json.obj [])

/-- Per-primitive body of the streaming attach block: ensure the extensions
object, then AddMember the extension payload unconditionally. -/
def streamPrimFn (accId : Nat) (facesArray : List Json) (prim : Json) :
    Json :=
  modMember (ensurePrimExtensions prim) "extensions" (fun e =>
    addMember e EXTENSION_NAME (brepExtensionObj accId facesArray))

/-- Per-primitive body of the snapshot attach loop: ensure the extensions
object, then AddMember the extension payload only when not already present. -/
def snapPrimFn (accId : Nat) (facesArray : List Json) (prim : Json) : Json :=
  if hasMember (getMemberD (ensurePrimExtensions prim) "extensions")
      EXTENSION_NAME then ensurePrimExtensions prim
  else
    modMember (ensurePrimExtensions prim) "extensions" (fun e =>
      addMember e EXTENSION_NAME (brepExtensionObj accId facesArray))

/-- Per-mesh body of the streaming attach block (first primitive only). -/
def streamMeshFn (accId : Nat) (facesArray : List Json) (mesh : Json) :
    Json :=
  if hasArrayMemberNonempty mesh "primitives" then
    modMember mesh "primitives"
      (fun ps => modAt ps 0 (streamPrimFn accId facesArray))
  else mesh

/-- Per-mesh attach body of the snapshot loop (all primitives). -/
def snapMeshAttachFn (accId : Nat) (facesArray : List Json) (mesh : Json) :
    Json :=
  if hasArrayMember mesh "primitives" then
    modMember mesh "primitives"
      (fun ps => mapArr ps (snapPrimFn accId facesArray))
  else mesh

/-- Per-mesh materials body of the snapshot loop. -/
def snapMeshMaterialsFn (materials : Option Json) (mesh : Json) : Json :=
  match materials with
  | some m =>
    if isArr m ∧ arrSize m > 0 then
      addMeshMaterials (ensureMeshCascadio mesh) m
    else mesh
  | none => mesh

/-- Streaming attach block: the extension object is added to the FIRST
primitive of the FIRST mesh only, unconditionally (no duplicate check). -/
def streamStageMeshAttach (d : Json) (accId : Nat)
    (facesArray : List Json) : Json :=
  if hasArrayMemberNonempty d "meshes" then
    modMember d "meshes"
      (fun ms => modAt ms 0 (streamMeshFn accId facesArray))
  else d

/-- Streaming materials block: adds the materials array (whenever the
pointer is non-null, regardless of shape) to the FIRST mesh only. -/
def streamStageMaterials (d : Json) (materials : Option Json) : Json :=
  match materials with
  | some m =>
    if hasArrayMemberNonempty d "meshes" then
      modMember d "meshes" (fun ms => modAt ms 0 (fun mesh =>
        addMeshMaterials (ensureMeshCascadio mesh) m))
    else d
  | none => d

/-- injectBrepExtensionIntoJson from extras.hpp (streaming-mode JSON hook):
document-mutation core. The source parses the JSON text, applies exactly
these mutations in this order, and re-serializes; `existingBinLength` is the
kernel's binary chunk length before the face-index payload is appended and
`faceIndicesBytes` the payload size promised by the caller. -/
def injectBrepExtensionIntoJson (doc0 : Json)
    (faceData : List FaceTriangleData)
    (existingBinLength faceIndicesBytes : Nat) (allowedTypes : List String)
    (materials : Option Json) (lengthUnit : ℚ) : Json :=
  let d1 :=
    if faceData ≠ [] ∧ faceIndicesBytes > 0 then
      let faceIndicesOffset := alignUp4u32 existingBinLength
      let alignedFaceIndicesBytes := alignUp4u32 faceIndicesBytes
      let newBinLength :=
        (faceIndicesOffset + alignedFaceIndicesBytes) % 4294967296
      let d := stageUpdateBufferLength doc0 newBinLength
      let faceIndicesBufferViewId :=
        if hasArrayMember d "bufferViews" then
          arrSize (getMemberD d "bufferViews")
        else 0
      let d := streamStageBufferViews d faceIndicesOffset faceIndicesBytes
      let faceIndicesAccessorId :=
        if hasArrayMember d "accessors" then
          arrSize (getMemberD d "accessors")
        else 0
      let d := streamStageAccessors d faceIndicesBufferViewId faceIndicesBytes
      let d := ensureExtensionUsed d
      let facesArray := facesArrayOf faceData allowedTypes lengthUnit
      streamStageMeshAttach d faceIndicesAccessorId facesArray
    else doc0
  streamStageMaterials d1 materials

/-- `Standard_Integer` (32-bit signed) wrap-around. -/
def wrap32 (n : Int) : Int :=
  (n + 2147483648) % 4294967296 - 2147483648

/-- The totalTriangles loop of injectBrepExtensionWithFaceData, including its
signed-overflow error check (`endTri < fd.triStart`). -/
def totalTrianglesAux (fds : List FaceTriangleData) (acc : Int) :
    Option Int :=
  match fds with
  | [] => some acc
  | fd :: rest =>
    let endTri := wrap32 (fd.triStart + fd.triCount)
    if endTri < fd.triStart then none
    else totalTrianglesAux rest (max acc endTri)

/-- Inner fill loop `for (t = 0; t < fd.triCount; ++t)` writing the face
index into slots `triStart + t` passing the bounds guard; iteration `n`
writes slot `start + n` after the earlier iterations. -/
def writeRange (arr : List Nat) (total start : Int) (n : Nat) (v : Nat) :
    List Nat :=
  match n with
  | 0 => arr
  | m + 1 =>
    let prev := writeRange arr total start m v
    let idx := start + m
    if 0 ≤ idx ∧ idx < total then prev.set idx.toNat v else prev

/-- The faceIndices build of injectBrepExtensionWithFaceData: a
zero-initialized `uint32_t` slot per triangle up to totalTriangles, then one
fill pass per face entry in list order (`static_cast<uint32_t>` is mod 2^32). -/
def buildFaceIndices (faceData : List FaceTriangleData) (total : Int) :
    List Nat :=
  faceData.foldl
    (fun arr fd => writeRange arr total fd.triStart fd.triCount.toNat
      ((fd.faceIndex % 4294967296).toNat))
    (List.replicate total.toNat 0)

/-- `while (size % 4 != 0) push_back(0)`: zero-pad to a 4-byte boundary. -/
def padZero4 (l : List Nat) : List Nat :=
  l ++ List.replicate ((4 - l.length % 4) % 4) 0

/-- Little-endian byte image of a `uint32_t` array (memcpy of its data). -/
def u32ArrayBytes (xs : List Nat) : List Nat :=
  xs.foldr (fun v acc => le32 v ++ acc) []

/-- Snapshot bufferViews block: id and push both guarded by
`HasMember && IsArray`. -/
def snapStageBufferViews (d : Json) (offset byteLen : Nat) : Json :=
  if hasArrayMember d "bufferViews" then
    modMember d "bufferViews"
      (fun bvs => pushElem bvs (faceIndicesBufferView offset byteLen))
  else d

/-- Snapshot accessors block (guarded by `HasMember && IsArray`; the count
is the face-index element count). -/
def snapStageAccessors (d : Json) (bvId count : Nat) : Json :=
  if hasArrayMember d "accessors" then
    modMember d "accessors"
      (fun accs => pushElem accs (faceIndicesAccessor bvId count))
  else d

/-- Snapshot attach+materials block: iterates over ALL meshes and ALL their
primitives, adds the extension object only where not already present, and
adds the materials array (when a non-empty array was supplied) to every
mesh's extras. -/
def snapStageMeshes (d : Json) (accId : Nat) (facesArray : List Json)
    (materials : Option Json) : Json :=
  if hasArrayMember d "meshes" then
    modMember d "meshes" (fun ms => mapArr ms (fun mesh =>
      snapMeshMaterialsFn materials (snapMeshAttachFn accId facesArray mesh)))
  else d

/-- injectBrepExtensionWithFaceData from extras.hpp (snapshot path):
document+binary mutation core operating on the parsed container
`(doc0, origBin)`; the source wraps this between parseGlb and serializeGlb.
Returns none on the error paths (triangle-index overflow, non-positive
triangle count). -/
def injectBrepExtensionWithFaceData (doc0 : Json) (origBin : List Nat)
    (faceData : List FaceTriangleData) (allowedTypes : List String)
    (materials : Option Json) (lengthUnit : ℚ) :
    Option (Json × List Nat) :=
  match totalTrianglesAux faceData 0 with
  | none => none
  | some totalTriangles =>
    if totalTriangles ≤ 0 then none
    else
      let faceIndices := buildFaceIndices faceData totalTriangles
      let facesArray := facesArrayOf faceData allowedTypes lengthUnit
      let newBinData0 := padZero4 origBin
      let faceIndicesOffset := newBinData0.length
      let faceIndicesBytes := 4 * faceIndices.length
      let newBinData := padZero4 (newBinData0 ++ u32ArrayBytes faceIndices)
      let newBinLength := newBinData.length
      let d := stageUpdateBufferLength doc0 newBinLength
      let faceIndicesBufferViewId :=
        if hasArrayMember d "bufferViews" then
          arrSize (getMemberD d "bufferViews")
        else 0
      let d := snapStageBufferViews d faceIndicesOffset faceIndicesBytes
      let faceIndicesAccessorId :=
        if hasArrayMember d "accessors" then
          arrSize (getMemberD d "accessors")
        else 0
      let d := snapStageAccessors d faceIndicesBufferViewId faceIndices.length
      let d := ensureExtensionUsed d
      let d := snapStageMeshes d faceIndicesAccessorId facesArray materials
      some (d, newBinData)

/-- ensurePrimitiveExtension of injectExtrasIntoGlbData followed by
`ext.AddMember("faces", facesCopy)`. -/
def processPrimitiveExtras (prim : Json) (facesArray : List Json) : Json :=
  let prim2 :=
    if hasMember prim "extensions" then prim
    else addMember prim "extensions" (Json.obj [])
  let prim3 :=
    if hasMember (getMemberD prim2 "extensions") EXTENSION_NAME then prim2
    else modMember prim2 "extensions"
      (fun e => addMember e EXTENSION_NAME (Json.obj []))
  modMember prim3 "extensions" (fun e => modMember e EXTENSION_NAME
    (fun x => addMember x "faces" (Json.arr facesArray)))

/-- The mesh at index i of the document (live read `meshes[i]`). -/
def getMeshAt (doc : Json) (i : Nat) : Json :=
  match getMember doc "meshes" with
  | some (Json.arr xs) => xs.getD i Json.null
  | _ => Json.null

/-- The per-primitive loop of injectExtrasIntoGlbData for mesh i: each
iteration calls ensureExtensionUsed on the document, then attaches the faces
array to primitive j of mesh i. -/
def injectExtrasPrimLoop (doc : Json) (i nPrims : Nat)
    (facesArray : List Json) : Json :=
  (List.range nPrims).foldl
    (fun d j =>
      let d2 := ensureExtensionUsed d
      modMember d2 "meshes" (fun ms => modAt ms i (fun mesh =>
        modMember mesh "primitives" (fun ps => modAt ps j (fun prim =>
          processPrimitiveExtras prim facesArray)))))
    doc

/-- One iteration of the mesh loop of injectExtrasIntoGlbData: the BREP
branch (when a shape with index i exists) followed by the materials branch. -/
def injectExtrasProcessMesh (doc : Json) (i : Nat)
    (shapes : List (List Face)) (allowedTypes : List String)
    (materials : Option Json) (u : ℚ) : Json :=
  let d1 :=
    if shapes ≠ [] ∧ i < shapes.length then
      let facesArray := extractAllPrimitives (shapes.getD i []) allowedTypes u
      if hasArrayMember (getMeshAt doc i) "primitives" then
        injectExtrasPrimLoop doc i
          (arrSize (getMemberD (getMeshAt doc i) "primitives")) facesArray
      else doc
    else doc
  match materials with
  | some m =>
    if isArr m ∧ arrSize m > 0 then
      modMember d1 "meshes" (fun ms => modAt ms i (fun mesh =>
        addMeshMaterials (ensureMeshCascadio mesh) m))
    else d1
  | none => d1

/-- injectExtrasIntoGlbData from extras.hpp: document-mutation core (the
source parses the container with parseGlb, applies these mutations, and
re-serializes with serializeGlb, passing the binary slice through untouched).
A shape is modelled as its kernel-reported face list. -/
def injectExtrasIntoGlbData (doc : Json) (shapes : List (List Face))
    (allowedTypes : List String) (materials : Option Json) (u : ℚ) : Json :=
  if hasArrayMember doc "meshes" then
    (List.range (arrSize (getMemberD doc "meshes"))).foldl
      (fun d i => injectExtrasProcessMesh d i shapes allowedTypes materials u)
      doc
  else doc

/-- Modelled from the spec: the streaming-mode binary-append hook is not in
src/ (only its JSON-hook counterpart is). Per the specification, the hook
writes the face-index buffer — one unsigned 32-bit integer per output
triangle, accumulated per face over the range
[triangleStart, triangleStart + triangleCount) in face-data order — at the
stream position immediately following the kernel's binary payload, 4-byte
aligned on both sides. The resulting binary region is the existing payload,
zero-padding to a 4-byte boundary, then the little-endian face-index words. -/
def streamingBinaryAppend (origBin : List Nat)
    (faceData : List FaceTriangleData) (total : Int) : List Nat :=
  padZero4 origBin ++ u32ArrayBytes (buildFaceIndices faceData total)

/-! ## Face-index buffer characterization (claim C10) -/

/-- The fill loop's coverage test for slot `i`: the slot lies in the range
written for the face entry (the loop runs `triCount.toNat` iterations). -/
def covers (fd : FaceTriangleData) (i : Nat) : Bool :=
  decide (fd.triStart ≤ (i : Int) ∧
    (i : Int) < fd.triStart + (fd.triCount.toNat : Int))

theorem getD_set (l : List Nat) (j i v : Nat) :
    (l.set j v).getD i 0 =
      if j = i ∧ j < l.length then v else l.getD i 0 := by
  by_cases hj : j = i
  · subst hj
    by_cases hl : j < l.length
    · simp [List.getD, List.getElem?_set, hl]
    · have hle : l.length ≤ j := by omega
      simp [List.getD, List.getElem?_set, hl,
        @List.getElem?_eq_none _ (l.set j v) _ (by simpa using hle),
        @List.getElem?_eq_none _ l _ hle]
  · simp [List.getD, List.getElem?_set, hj]

theorem writeRange_length (arr : List Nat) (total start : Int) (n v : Nat) :
    (writeRange arr total start n v).length = arr.length := by
  induction n with
  | zero => rfl
  | succ m ih =>
    rw [writeRange]
    by_cases hg : 0 ≤ start + m ∧ start + m < total
    · simp only [hg, and_self, if_true, List.length_set]
      exact ih
    · simp only [if_neg hg]
      exact ih

theorem writeRange_getD (arr : List Nat) (total start : Int) (v : Nat) :
    ∀ (n i : Nat),
      (writeRange arr total start n v).getD i 0 =
        if start ≤ (i : Int) ∧ (i : Int) < start + n ∧ (i : Int) < total ∧
            i < arr.length then v
        else arr.getD i 0 := by
  intro n
  induction n with
  | zero =>
    intro i
    rw [writeRange, if_neg (by push_cast; omega)]
  | succ m ih =>
    intro i
    rw [writeRange]
    by_cases hg : 0 ≤ start + m ∧ start + m < total
    · rw [if_pos hg, getD_set, writeRange_length, ih i]
      by_cases he : (start + m).toNat = i ∧ (start + m).toNat < arr.length
      · rw [if_pos he]
        have hi : (i : Int) = start + m := by omega
        rw [if_pos (by push_cast; omega)]
      · rw [if_neg he]
        by_cases hcov : start ≤ (i : Int) ∧ (i : Int) < start + m ∧
            (i : Int) < total ∧ i < arr.length
        · rw [if_pos hcov, if_pos (by push_cast at hcov ⊢; omega)]
        · rw [if_neg hcov, if_neg (by
            intro hc
            apply he
            push_cast at hc hcov
            constructor <;> omega)]
    · rw [if_neg hg, ih i]
      by_cases hcov : start ≤ (i : Int) ∧ (i : Int) < start + m ∧
          (i : Int) < total ∧ i < arr.length
      · rw [if_pos hcov, if_pos (by push_cast at hcov ⊢; omega)]
      · rw [if_neg hcov, if_neg (by
          intro hc
          apply hcov
          push_cast at hc hcov ⊢
          refine ⟨hc.1, ?_, hc.2.2.1, hc.2.2.2⟩
          omega)]

/-- The fill fold of buildFaceIndices: the value of slot `i` is the face
index of the last entry in the face-data list whose written range covers
`i`, or the initial value when no entry covers it. -/
theorem buildFill_getD :
    ∀ (fds : List FaceTriangleData) (arr : List Nat) (total : Int)
      (i : Nat), i < arr.length → (i : Int) < total →
      (fds.foldl
          (fun a fd => writeRange a total fd.triStart fd.triCount.toNat
            ((fd.faceIndex % 4294967296).toNat)) arr).getD i 0 =
        (match fds.reverse.find? (fun fd2 => covers fd2 i) with
         | some fd => (fd.faceIndex % 4294967296).toNat
         | none => arr.getD i 0) := by
  intro fds
  induction fds with
  | nil =>
    intro arr total i _ _
    simp
  | cons fd rest ih =>
    intro arr total i hi hit
    rw [List.foldl_cons,
      ih _ total i (by rw [writeRange_length]; exact hi) hit,
      List.reverse_cons, List.find?_append]
    cases hfind : rest.reverse.find? (fun fd2 => covers fd2 i) with
    | some fd2 => simp [hfind]
    | none =>
      simp only [hfind, Option.none_or]
      by_cases hc : covers fd i
      · have hc2 := of_decide_eq_true hc
        rw [writeRange_getD,
          if_pos ⟨hc2.1, by omega, hit, hi⟩]
        simp [List.find?, hc]
      · rw [writeRange_getD, if_neg (by
          intro hcontra
          apply hc
          simp only [covers, decide_eq_true_eq]
          omega)]
        simp [List.find?, hc]

theorem fillFold_length (total : Int) :
    ∀ (fds : List FaceTriangleData) (arr : List Nat),
      (fds.foldl
          (fun a fd => writeRange a total fd.triStart fd.triCount.toNat
            ((fd.faceIndex % 4294967296).toNat)) arr).length = arr.length := by
  intro fds
  induction fds with
  | nil => intro arr; rfl
  | cons fd rest ih =>
    intro arr
    rw [List.foldl_cons, ih, writeRange_length]

theorem buildFaceIndices_length (faceData : List FaceTriangleData)
    (total : Int) :
    (buildFaceIndices faceData total).length = total.toNat := by
  rw [buildFaceIndices, fillFold_length, List.length_replicate]

theorem wrap32_eq_self (n : Int) (h1 : -2147483648 ≤ n)
    (h2 : n < 2147483648) : wrap32 n = n := by
  unfold wrap32
  omega

theorem totalTrianglesAux_eq_max (fds : List FaceTriangleData)
    (hwf : ∀ fd ∈ fds, 0 ≤ fd.triStart ∧ 0 ≤ fd.triCount ∧
      fd.triStart + fd.triCount < 2147483648) :
    ∀ acc : Int, totalTrianglesAux fds acc =
      some (fds.foldl (fun a fd => max a (fd.triStart + fd.triCount)) acc) := by
  induction fds with
  | nil => intro acc; rfl
  | cons fd rest ih =>
    intro acc
    have hfd := hwf fd (by simp)
    have hw : wrap32 (fd.triStart + fd.triCount) = fd.triStart + fd.triCount :=
      wrap32_eq_self _ (by omega) (by omega)
    rw [totalTrianglesAux]
    simp only [hw]
    rw [if_neg (by omega), List.foldl_cons]
    exact ih (fun fd2 h2 => hwf fd2 (by simp [h2])) _

theorem foldl_max_ub (fds : List FaceTriangleData) :
    ∀ acc : Int,
      (acc ≤ fds.foldl (fun a fd => max a (fd.triStart + fd.triCount)) acc) ∧
      ∀ fd ∈ fds, fd.triStart + fd.triCount ≤
        fds.foldl (fun a fd => max a (fd.triStart + fd.triCount)) acc := by
  induction fds with
  | nil => intro acc; exact ⟨le_refl _, by simp⟩
  | cons fd rest ih =>
    intro acc
    rw [List.foldl_cons]
    obtain ⟨hacc, hall⟩ := ih (max acc (fd.triStart + fd.triCount))
    refine ⟨le_trans (le_max_left _ _) hacc, ?_⟩
    intro fd2 h2
    rcases List.mem_cons.1 h2 with h2 | h2
    · subst h2
      exact le_trans (le_max_right _ _) hacc
    · exact hall fd2 h2

theorem foldl_max_mem (fds : List FaceTriangleData) :
    ∀ acc : Int,
      fds.foldl (fun a fd => max a (fd.triStart + fd.triCount)) acc = acc ∨
      ∃ fd ∈ fds, fds.foldl (fun a fd => max a (fd.triStart + fd.triCount))
        acc = fd.triStart + fd.triCount := by
  induction fds with
  | nil => intro acc; exact Or.inl rfl
  | cons fd rest ih =>
    intro acc
    rw [List.foldl_cons]
    rcases ih (max acc (fd.triStart + fd.triCount)) with h | ⟨fd2, h2, hh⟩
    · rw [h]
      rcases max_choice acc (fd.triStart + fd.triCount) with hm | hm
      · exact Or.inl hm
      · exact Or.inr ⟨fd, by simp, hm⟩
    · exact Or.inr ⟨fd2, by simp [h2], hh⟩

/-- C10: in injectBrepExtensionWithFaceData the face-index buffer has one
zero-initialized 32-bit slot per triangle up to the maximum
triStart + triCount over the face entries; a slot covered by no entry's
range keeps value 0 (indistinguishable from a triangle of face 0, whose
entries also write 0); on overlaps the entry appearing later in the
face-data list wins; and the snapshot injector appends exactly this buffer
(4-byte aligned on both sides) to the container's binary region. -/
theorem faceIndexBuffer_fill (faceData : List FaceTriangleData)
    (doc0 : Json) (origBin : List Nat) (allowedTypes : List String)
    (materials : Option Json) (u : ℚ) (T : Int)
    (hwf : ∀ fd ∈ faceData, 0 ≤ fd.triStart ∧ 0 ≤ fd.triCount ∧
      fd.triStart + fd.triCount < 2147483648)
    (hT : totalTrianglesAux faceData 0 = some T)
    (hpos : 0 < T) :
    (buildFaceIndices faceData T).length = T.toNat ∧
    (∀ fd ∈ faceData, fd.triStart + fd.triCount ≤ T) ∧
    (∃ fd ∈ faceData, fd.triStart + fd.triCount = T) ∧
    (∀ i : Nat, i < T.toNat →
      (∀ fd ∈ faceData, ¬(fd.triStart ≤ (i : Int) ∧
        (i : Int) < fd.triStart + fd.triCount)) →
      (buildFaceIndices faceData T).getD i 0 = 0) ∧
    (∀ i : Nat, i < T.toNat → ∀ fd : FaceTriangleData,
      faceData.reverse.find? (fun fd2 => covers fd2 i) = some fd →
      (buildFaceIndices faceData T).getD i 0 =
        (fd.faceIndex % 4294967296).toNat) ∧
    (∃ d, injectBrepExtensionWithFaceData doc0 origBin faceData allowedTypes
        materials u =
      some (d, padZero4 (padZero4 origBin ++
        u32ArrayBytes (buildFaceIndices faceData T)))) := by
  have hmax := totalTrianglesAux_eq_max faceData hwf 0
  rw [hT] at hmax
  have hTval : T =
      faceData.foldl (fun a fd => max a (fd.triStart + fd.triCount)) 0 := by
    simpa using hmax
  have hub := foldl_max_ub faceData 0
  have hlen := buildFaceIndices_length faceData T
  have hiT : ∀ i : Nat, i < T.toNat → (i : Int) < T := by
    intro i hi
    omega
  refine ⟨hlen, ?_, ?_, ?_, ?_, ?_⟩
  · intro fd hfd
    rw [hTval]
    exact hub.2 fd hfd
  · rcases foldl_max_mem faceData 0 with h | ⟨fd, hfd, hh⟩
    · rw [hTval, h] at hpos
      omega
    · exact ⟨fd, hfd, by rw [hTval]; exact hh.symm⟩
  · intro i hi hnone
    have hfind : faceData.reverse.find? (fun fd2 => covers fd2 i) = none := by
      rw [List.find?_eq_none]
      intro fd hfd
      simp only [covers, decide_eq_true_eq]
      intro hcontra
      have hmem := List.mem_reverse.1 hfd
      have hwfd := hwf fd hmem
      exact hnone fd hmem ⟨hcontra.1, by omega⟩
    rw [buildFaceIndices, buildFill_getD faceData _ T i
      (by rw [List.length_replicate]; exact hi) (hiT i hi), hfind]
    simp [List.getD, List.getElem?_replicate, hi]
  · intro i hi fd hfind
    rw [buildFaceIndices, buildFill_getD faceData _ T i
      (by rw [List.length_replicate]; exact hi) (hiT i hi), hfind]
  · rw [injectBrepExtensionWithFaceData, hT]
    dsimp only
    rw [if_neg (by omega : ¬T ≤ 0)]
    exact ⟨_, rfl⟩

/-- Concrete face data for the C10 witness: two overlapping ranges. -/
def fdsW : List FaceTriangleData :=
  [{ faceIndex := 5, triStart := 0, triCount := 2, face := {} },
   { faceIndex := 7, triStart := 1, triCount := 2, face := {} }]

/-- Witness for C10 at concrete data: total 3; the overlapped slot 1 takes
the later entry's face index 7. -/
theorem faceIndexBuffer_fill_witness :
    (buildFaceIndices fdsW 3).length = (3 : Int).toNat ∧
    (buildFaceIndices fdsW 3).getD 1 0 = ((7 : Int) % 4294967296).toNat := by
  have h := faceIndexBuffer_fill fdsW (Json.obj []) [] [] none 1 3
    (by decide) (by decide) (by decide)
  exact ⟨h.1, h.2.2.2.2.1 1 (by decide)
    { faceIndex := 7, triStart := 1, triCount := 2, face := {} } (by decide)⟩

/-! ## Member-access algebra for the JSON model -/

theorem lookupField_append (fs gs : List (String × Json)) (k : String) :
    lookupField (fs ++ gs) k = (lookupField fs k).or (lookupField gs k) := by
  induction fs with
  | nil => simp [lookupField]
  | cons kv rest ih =>
    rw [List.cons_append, lookupField, lookupField]
    by_cases hk : kv.1 = k
    · simp [hk]
    · simp [hk, ih]

theorem lookupField_setFirst_same (fs : List (String × Json)) (k : String)
    (f : Json → Json) :
    lookupField (setFirst fs k f) k = (lookupField fs k).map f := by
  induction fs with
  | nil => simp [setFirst, lookupField]
  | cons kv rest ih =>
    rw [setFirst]
    by_cases hk : kv.1 = k
    · simp [hk, lookupField]
    · simp only [hk, if_false]
      rw [lookupField, lookupField]
      simp [hk, ih]

theorem lookupField_setFirst_ne (fs : List (String × Json)) (k k2 : String)
    (f : Json → Json) (h : ¬k = k2) :
    lookupField (setFirst fs k f) k2 = lookupField fs k2 := by
  induction fs with
  | nil => simp [setFirst]
  | cons kv rest ih =>
    rw [setFirst]
    by_cases hk : kv.1 = k
    · have : ¬kv.1 = k2 := by rw [hk]; exact h
      simp [hk, lookupField, this, h]
    · simp only [hk, if_false]
      rw [lookupField, lookupField]
      by_cases hk2 : kv.1 = k2
      · simp [hk2]
      · simp [hk2, ih]

theorem getMember_addMember_ne (j : Json) (k k2 : String) (v : Json)
    (h : ¬k = k2) :
    getMember (addMember j k v) k2 = getMember j k2 := by
  cases j <;> simp [addMember, getMember]
  rw [lookupField_append]
  simp [lookupField, h]

theorem getMember_addMember_absent (fs : List (String × Json)) (k : String)
    (v : Json) (h : lookupField fs k = none) :
    getMember (addMember (Json.obj fs) k v) k = some v := by
  simp [addMember, getMember, lookupField_append, h, lookupField]

theorem getMember_modMember_ne (j : Json) (k k2 : String) (f : Json → Json)
    (h : ¬k = k2) :
    getMember (modMember j k f) k2 = getMember j k2 := by
  cases j <;> simp [modMember, getMember]
  cases hl : lookupField _ k <;> simp [getMember, lookupField_setFirst_ne _ _ _ _ h]

theorem getMember_modMember_same (j : Json) (k : String) (f : Json → Json) :
    getMember (modMember j k f) k = (getMember j k).map f := by
  cases j <;> simp [modMember, getMember]
  cases hl : lookupField _ k with
  | none => simp [getMember, hl]
  | some v => simp [getMember, lookupField_setFirst_same, hl]

theorem ensureExtensionUsed_getMember_ne (j : Json) (k : String)
    (h : ¬"extensionsUsed" = k) :
    getMember (ensureExtensionUsed j) k = getMember j k := by
  rw [ensureExtensionUsed]
  by_cases hm : hasMember j "extensionsUsed"
  · simp only [hm, if_true]
    by_cases hfound : extNameFound (getMemberD j "extensionsUsed")
    · simp [hfound]
    · simp [hfound, getMember_modMember_ne _ _ _ _ h]
  · simp only [hm, if_false, Bool.false_eq_true]
    by_cases hfound : extNameFound
        (getMemberD (addMember j "extensionsUsed" (Json.arr []))
          "extensionsUsed")
    · simp [hfound, getMember_addMember_ne _ _ _ _ h]
    · simp [hfound, getMember_modMember_ne _ _ _ _ h,
        getMember_addMember_ne _ _ _ _ h]

/-- extUsedCount only depends on the extensionsUsed member. -/
theorem extUsedCount_congr (d1 d2 : Json)
    (h : getMember d1 "extensionsUsed" = getMember d2 "extensionsUsed") :
    extUsedCount d1 = extUsedCount d2 := by
  rw [extUsedCount, extUsedCount, h]

theorem stageUpdateBufferLength_ne (d : Json) (n : Nat) (k : String)
    (h : ¬"buffers" = k) :
    getMember (stageUpdateBufferLength d n) k = getMember d k := by
  rw [stageUpdateBufferLength]
  by_cases hg : hasArrayMemberNonempty d "buffers"
  · simp [hg, getMember_modMember_ne _ _ _ _ h]
  · simp [hg]

theorem streamStageBufferViews_ne (d : Json) (o b : Nat) (k : String)
    (h : ¬"bufferViews" = k) :
    getMember (streamStageBufferViews d o b) k = getMember d k := by
  rw [streamStageBufferViews]
  by_cases hg : hasMember d "bufferViews"
  · simp [hg, getMember_modMember_ne _ _ _ _ h]
  · simp [hg]

theorem streamStageAccessors_ne (d : Json) (o b : Nat) (k : String)
    (h : ¬"accessors" = k) :
    getMember (streamStageAccessors d o b) k = getMember d k := by
  rw [streamStageAccessors]
  by_cases hg : hasMember d "accessors"
  · simp [hg, getMember_modMember_ne _ _ _ _ h]
  · simp [hg]

theorem streamStageMeshAttach_ne (d : Json) (a : Nat) (fa : List Json)
    (k : String) (h : ¬"meshes" = k) :
    getMember (streamStageMeshAttach d a fa) k = getMember d k := by
  rw [streamStageMeshAttach]
  by_cases hg : hasArrayMemberNonempty d "meshes"
  · simp [hg, getMember_modMember_ne _ _ _ _ h]
  · simp [hg]

theorem streamStageMaterials_ne (d : Json) (materials : Option Json)
    (k : String) (h : ¬"meshes" = k) :
    getMember (streamStageMaterials d materials) k = getMember d k := by
  cases materials with
  | none => rfl
  | some m =>
    by_cases hg : hasArrayMemberNonempty d "meshes"
    · simp [streamStageMaterials, hg, getMember_modMember_ne _ _ _ _ h]
    · simp [streamStageMaterials, hg]

theorem stageUpdateBufferLength_buffers (d : Json) (n : Nat) (b0 : Json)
    (bs : List Json)
    (hbuf : getMember d "buffers" = some (Json.arr (b0 :: bs))) :
    getMember (stageUpdateBufferLength d n) "buffers" =
      some (Json.arr
        (modMember b0 "byteLength" (fun _ => Json.num (n : ℚ)) :: bs)) := by
  rw [stageUpdateBufferLength]
  have hg : hasArrayMemberNonempty d "buffers" = true := by
    rw [hasArrayMemberNonempty, hbuf]
  rw [if_pos hg, getMember_modMember_same, hbuf]
  simp [modAt, List.getD]

theorem streamStageBufferViews_views (d : Json) (o b : Nat)
    (bvs : List Json)
    (hbv : getMember d "bufferViews" = some (Json.arr bvs)) :
    getMember (streamStageBufferViews d o b) "bufferViews" =
      some (Json.arr (bvs ++ [faceIndicesBufferView o b])) := by
  rw [streamStageBufferViews]
  have hg : hasMember d "bufferViews" = true := by
    rw [hasMember, hbv]
    rfl
  rw [if_pos hg, getMember_modMember_same, hbv]
  simp [pushElem]

/-- Round up to the next multiple of 4. -/
def roundUp4 (n : Nat) : Nat := (n + 3) / 4 * 4

theorem alignUp4u32_eq (n : Nat) (h : n + 3 < 4294967296) :
    alignUp4u32 n = roundUp4 n := by
  rw [alignUp4u32, roundUp4, Nat.mod_eq_of_lt h]

/-- C6: in the streaming-mode JSON hook, for every existing binary length L
and face-index payload of B bytes, the injected bufferView's byteOffset is L
rounded up to the next multiple of 4, and the updated buffers[0].byteLength
is that aligned offset plus B rounded up to the next multiple of 4. -/
theorem streaming_alignment (doc : Json) (faceData : List FaceTriangleData)
    (L B : Nat) (allowedTypes : List String) (materials : Option Json)
    (u : ℚ) (b0 : Json) (bs bvs : List Json) (w : Json)
    (hfd : faceData ≠ []) (hB : B > 0)
    (hbuf : getMember doc "buffers" = some (Json.arr (b0 :: bs)))
    (hb0 : getMember b0 "byteLength" = some w)
    (hbv : getMember doc "bufferViews" = some (Json.arr bvs))
    (hL : L + 3 < 4294967296) (hB3 : B + 3 < 4294967296)
    (hs : roundUp4 L + roundUp4 B < 4294967296) :
    getMember (injectBrepExtensionIntoJson doc faceData L B allowedTypes
        materials u) "bufferViews" =
      some (Json.arr (bvs ++ [faceIndicesBufferView (roundUp4 L) B])) ∧
    ∃ b0out bs2,
      getMember (injectBrepExtensionIntoJson doc faceData L B allowedTypes
          materials u) "buffers" = some (Json.arr (b0out :: bs2)) ∧
      getMember b0out "byteLength" =
        some (Json.num ((roundUp4 L + roundUp4 B : Nat) : ℚ)) := by
  rw [injectBrepExtensionIntoJson]
  rw [if_pos (⟨hfd, hB⟩ : faceData ≠ [] ∧ B > 0)]
  have hnbl : (alignUp4u32 L + alignUp4u32 B) % 4294967296 =
      roundUp4 L + roundUp4 B := by
    rw [alignUp4u32_eq L hL, alignUp4u32_eq B hB3, Nat.mod_eq_of_lt hs]
  simp only [hnbl]
  simp only [alignUp4u32_eq L hL]
  set d1 := stageUpdateBufferLength doc (roundUp4 L + roundUp4 B) with hd1
  have h1b : getMember d1 "buffers" = some (Json.arr
      (modMember b0 "byteLength"
        (fun _ => Json.num ((roundUp4 L + roundUp4 B : Nat) : ℚ)) :: bs)) :=
    stageUpdateBufferLength_buffers doc _ b0 bs hbuf
  have h1v : getMember d1 "bufferViews" = some (Json.arr bvs) := by
    rw [hd1, stageUpdateBufferLength_ne _ _ _ (by decide), hbv]
  set d2 := streamStageBufferViews d1 (roundUp4 L) B with hd2
  have h2v : getMember d2 "bufferViews" =
      some (Json.arr (bvs ++ [faceIndicesBufferView (roundUp4 L) B])) :=
    streamStageBufferViews_views d1 _ _ bvs h1v
  have h2b : getMember d2 "buffers" = getMember d1 "buffers" := by
    rw [hd2, streamStageBufferViews_ne _ _ _ _ (by decide)]
  set d3 := streamStageAccessors d2
    (if hasArrayMember d1 "bufferViews" then
      arrSize (getMemberD d1 "bufferViews") else 0) B with hd3
  have h3v : getMember d3 "bufferViews" = getMember d2 "bufferViews" := by
    rw [hd3, streamStageAccessors_ne _ _ _ _ (by decide)]
  have h3b : getMember d3 "buffers" = getMember d2 "buffers" := by
    rw [hd3, streamStageAccessors_ne _ _ _ _ (by decide)]
  set d4 := ensureExtensionUsed d3 with hd4
  have h4v : getMember d4 "bufferViews" = getMember d3 "bufferViews" :=
    ensureExtensionUsed_getMember_ne d3 _ (by decide)
  have h4b : getMember d4 "buffers" = getMember d3 "buffers" :=
    ensureExtensionUsed_getMember_ne d3 _ (by decide)
  set d5 := streamStageMeshAttach d4
    (if hasArrayMember d2 "accessors" then
      arrSize (getMemberD d2 "accessors") else 0)
    (facesArrayOf faceData allowedTypes u) with hd5
  have h5v : getMember d5 "bufferViews" = getMember d4 "bufferViews" := by
    rw [hd5, streamStageMeshAttach_ne _ _ _ _ (by decide)]
  have h5b : getMember d5 "buffers" = getMember d4 "buffers" := by
    rw [hd5, streamStageMeshAttach_ne _ _ _ _ (by decide)]
  have h6v : getMember (streamStageMaterials d5 materials) "bufferViews" =
      getMember d5 "bufferViews" :=
    streamStageMaterials_ne d5 materials _ (by decide)
  have h6b : getMember (streamStageMaterials d5 materials) "buffers" =
      getMember d5 "buffers" :=
    streamStageMaterials_ne d5 materials _ (by decide)
  constructor
  · rw [h6v, h5v, h4v, h3v, h2v]
  · refine ⟨modMember b0 "byteLength"
      (fun _ => Json.num ((roundUp4 L + roundUp4 B : Nat) : ℚ)), bs, ?_, ?_⟩
    · rw [h6b, h5b, h4b, h3b, h2b, h1b]
    · rw [getMember_modMember_same, hb0]
      rfl

/-- Concrete container for the C6 witness (the spec's alignment example). -/
def docW : Json :=
  Json.obj
    [("buffers", Json.arr [Json.obj [("byteLength", Json.num 13)]]),
     ("bufferViews", Json.arr []),
     ("accessors", Json.arr []),
     ("meshes", Json.arr
       [Json.obj [("primitives", Json.arr [Json.obj []])]])]

/-- Witness for C6 at the spec's example: existing length 13, payload 12
bytes, offset 16 and new byteLength 28. -/
theorem streaming_alignment_witness :
    getMember (injectBrepExtensionIntoJson docW fdsW 13 12 [] none 1)
        "bufferViews" =
      some (Json.arr ([] ++ [faceIndicesBufferView (roundUp4 13) 12])) ∧
    ∃ b0out bs2,
      getMember (injectBrepExtensionIntoJson docW fdsW 13 12 [] none 1)
          "buffers" = some (Json.arr (b0out :: bs2)) ∧
      getMember b0out "byteLength" =
        some (Json.num ((roundUp4 13 + roundUp4 12 : Nat) : ℚ)) :=
  streaming_alignment docW fdsW 13 12 [] none 1
    (Json.obj [("byteLength", Json.num 13)]) [] [] (Json.num 13)
    (by decide) (by decide) rfl rfl rfl (by decide) (by decide) (by decide)

theorem modMember_obj (fs : List (String × Json)) (k : String)
    (f : Json → Json) :
    ∃ gs, modMember (Json.obj fs) k f = Json.obj gs := by
  rw [modMember]
  cases lookupField fs k with
  | none => exact ⟨fs, rfl⟩
  | some v => exact ⟨setFirst fs k f, rfl⟩

theorem stageUpdateBufferLength_obj (d : Json) (n : Nat)
    (h : ∃ fs, d = Json.obj fs) :
    ∃ gs, stageUpdateBufferLength d n = Json.obj gs := by
  obtain ⟨fs, rfl⟩ := h
  rw [stageUpdateBufferLength]
  by_cases hg : hasArrayMemberNonempty (Json.obj fs) "buffers"
  · simpa [hg] using modMember_obj fs "buffers" _
  · exact ⟨fs, by simp [hg]⟩

theorem streamStageBufferViews_obj (d : Json) (o b : Nat)
    (h : ∃ fs, d = Json.obj fs) :
    ∃ gs, streamStageBufferViews d o b = Json.obj gs := by
  obtain ⟨fs, rfl⟩ := h
  rw [streamStageBufferViews]
  by_cases hg : hasMember (Json.obj fs) "bufferViews"
  · simpa [hg] using modMember_obj fs "bufferViews" _
  · exact ⟨fs, by simp [hg]⟩

theorem streamStageAccessors_obj (d : Json) (o b : Nat)
    (h : ∃ fs, d = Json.obj fs) :
    ∃ gs, streamStageAccessors d o b = Json.obj gs := by
  obtain ⟨fs, rfl⟩ := h
  rw [streamStageAccessors]
  by_cases hg : hasMember (Json.obj fs) "accessors"
  · simpa [hg] using modMember_obj fs "accessors" _
  · exact ⟨fs, by simp [hg]⟩

/-- The de-duplication core: on a well-formed container whose extensionsUsed
lists the name at most once, ensureExtensionUsed yields exactly one listing. -/
theorem ensureExtensionUsed_count (doc : Json)
    (hobj : ∃ fs, doc = Json.obj fs)
    (harr : getMember doc "extensionsUsed" = none ∨
      ∃ xs, getMember doc "extensionsUsed" = some (Json.arr xs))
    (hle : extUsedCount doc ≤ 1) :
    extUsedCount (ensureExtensionUsed doc) = 1 := by
  obtain ⟨fs, rfl⟩ := hobj
  rcases harr with habs | ⟨xs, hxs⟩
  · have hnm : hasMember (Json.obj fs) "extensionsUsed" = false := by
      rw [hasMember, habs]
      rfl
    have hadd : getMember (addMember (Json.obj fs) "extensionsUsed"
        (Json.arr [])) "extensionsUsed" = some (Json.arr []) :=
      getMember_addMember_absent fs _ _ (by
        rw [getMember] at habs
        exact habs)
    rw [ensureExtensionUsed]
    simp only [hnm, Bool.false_eq_true, if_false]
    have hfound : extNameFound (getMemberD (addMember (Json.obj fs)
        "extensionsUsed" (Json.arr [])) "extensionsUsed") = false := by
      rw [getMemberD, hadd]
      rfl
    simp only [hfound, Bool.false_eq_true, if_false]
    rw [extUsedCount.eq_def, getMember_modMember_same, hadd]
    rfl
  · have hnm : hasMember (Json.obj fs) "extensionsUsed" = true := by
      rw [hasMember, hxs]
      rfl
    rw [ensureExtensionUsed]
    simp only [hnm, if_true]
    rw [getMemberD, hxs]
    simp only [Option.getD_some]
    have hcnt : extUsedCount (Json.obj fs) =
        (xs.filter (fun v =>
          match v with
          | Json.str s => s == EXTENSION_NAME
          | _ => false)).length := by
      rw [extUsedCount.eq_def, hxs]
    by_cases hfound : extNameFound (Json.arr xs)
    · rw [if_pos hfound]
      rw [extNameFound] at hfound
      obtain ⟨x, hxmem, hpx⟩ := List.any_eq_true.1 hfound
      rw [hcnt] at hle ⊢
      have hmemf : x ∈ xs.filter (fun v =>
          match v with
          | Json.str s => s == EXTENSION_NAME
          | _ => false) := List.mem_filter.2 ⟨hxmem, hpx⟩
      have := List.length_pos_of_mem hmemf
      omega
    · rw [if_neg hfound]
      rw [extNameFound] at hfound
      have hall : ∀ x ∈ xs, ¬((fun v =>
          match v with
          | Json.str s => s == EXTENSION_NAME
          | _ => false) x = true) := by
        intro x hx hpx
        exact hfound (List.any_eq_true.2 ⟨x, hx, hpx⟩)
      have hnil : xs.filter (fun v =>
          match v with
          | Json.str s => s == EXTENSION_NAME
          | _ => false) = [] := List.filter_eq_nil_iff.2 hall
      have hcnt2 : extUsedCount (modMember (Json.obj fs) "extensionsUsed"
          (fun e => pushElem e (Json.str EXTENSION_NAME))) =
          ((xs ++ [Json.str EXTENSION_NAME]).filter (fun v =>
            match v with
            | Json.str s => s == EXTENSION_NAME
            | _ => false)).length := by
        rw [extUsedCount.eq_def, getMember_modMember_same, hxs]
        rfl
      rw [hcnt2, List.filter_append, hnil]
      rfl

/-- C7 (amended): on any container whose extensionsUsed (when present) is an
array listing the vendor extension name at most once, both the
ensureExtensionUsed helper (snapshot paths) and the streaming JSON hook
leave the name listed exactly once after attaching the extension: if it was
already listed nothing is added, otherwise a single entry is appended.
(Pre-existing duplicate listings are preserved, hence the at-most-once
hypothesis.) -/
theorem extensionsUsed_dedup (doc : Json)
    (hobj : ∃ fs, doc = Json.obj fs)
    (harr : getMember doc "extensionsUsed" = none ∨
      ∃ xs, getMember doc "extensionsUsed" = some (Json.arr xs))
    (hle : extUsedCount doc ≤ 1) :
    extUsedCount (ensureExtensionUsed doc) = 1 ∧
    ∀ (faceData : List FaceTriangleData) (L B : Nat)
      (allowedTypes : List String) (materials : Option Json) (u : ℚ),
      faceData ≠ [] → B > 0 →
      extUsedCount (injectBrepExtensionIntoJson doc faceData L B
        allowedTypes materials u) = 1 := by
  refine ⟨ensureExtensionUsed_count doc hobj harr hle, ?_⟩
  intro faceData L B allowedTypes materials u hfd hB
  rw [injectBrepExtensionIntoJson]
  rw [if_pos (⟨hfd, hB⟩ : faceData ≠ [] ∧ B > 0)]
  set d1 := stageUpdateBufferLength doc
    ((alignUp4u32 L + alignUp4u32 B) % 4294967296) with hd1
  set d2 := streamStageBufferViews d1 (alignUp4u32 L) B with hd2
  set d3 := streamStageAccessors d2
    (if hasArrayMember d1 "bufferViews" then
      arrSize (getMemberD d1 "bufferViews") else 0) B with hd3
  have h1 : getMember d1 "extensionsUsed" =
      getMember doc "extensionsUsed" := by
    rw [hd1, stageUpdateBufferLength_ne _ _ _ (by decide)]
  have h2 : getMember d2 "extensionsUsed" = getMember d1 "extensionsUsed" := by
    rw [hd2, streamStageBufferViews_ne _ _ _ _ (by decide)]
  have h3 : getMember d3 "extensionsUsed" = getMember d2 "extensionsUsed" := by
    rw [hd3, streamStageAccessors_ne _ _ _ _ (by decide)]
  have hobj3 : ∃ gs, d3 = Json.obj gs := by
    rw [hd3]
    exact streamStageAccessors_obj _ _ _
      (streamStageBufferViews_obj _ _ _
        (stageUpdateBufferLength_obj _ _ hobj))
  have hcount3 : extUsedCount (ensureExtensionUsed d3) = 1 := by
    apply ensureExtensionUsed_count d3 hobj3
    · rw [h3, h2, h1]
      exact harr
    · rw [extUsedCount_congr d3 doc (by rw [h3, h2, h1])]
      exact hle
  rw [extUsedCount_congr _ (ensureExtensionUsed d3) ?_]
  · exact hcount3
  · rw [streamStageMaterials_ne _ _ _ (by decide),
      streamStageMeshAttach_ne _ _ _ _ (by decide)]

/-- Container already listing the extension name twice. -/
def docDup : Json :=
  Json.obj [("extensionsUsed",
    Json.arr [Json.str EXTENSION_NAME, Json.str EXTENSION_NAME])]

/-- C7 counterexample: on a container whose extensionsUsed already lists the
name twice, attaching the extension leaves the duplicate in place — the
output does not contain the name exactly once. -/
theorem extensionsUsed_dedup_counterexample :
    extUsedCount (ensureExtensionUsed docDup) ≠ 1 := by
  decide

/-- Witness for C7 (amended) at a concrete container with no extensionsUsed. -/
theorem extensionsUsed_dedup_witness :
    extUsedCount (ensureExtensionUsed docW) = 1 ∧
    extUsedCount (injectBrepExtensionIntoJson docW fdsW 13 12 [] none 1) = 1 :=
  ⟨(extensionsUsed_dedup docW ⟨_, rfl⟩ (Or.inl rfl) (by decide)).1,
    (extensionsUsed_dedup docW ⟨_, rfl⟩ (Or.inl rfl) (by decide)).2
      fdsW 13 12 [] none 1 (by decide) (by decide)⟩

theorem set_append_length (l1 l2 : List Json) (x v : Json) :
    (l1 ++ x :: l2).set l1.length v = l1 ++ v :: l2 := by
  induction l1 with
  | nil => rfl
  | cons y rest ih => simp [List.set, ih]

theorem getD_append_length (l1 l2 : List Json) (x : Json) :
    (l1 ++ x :: l2).getD l1.length Json.null = x := by
  induction l1 with
  | nil => rfl
  | cons y rest ih => simpa using ih

/-- Processing every mesh index in order with an in-place per-mesh update is
the map of that update over the meshes array; all other members are
untouched. -/
theorem foldRange_modMeshes (g : Json → Json) (xs : List Json) :
    ∀ (n : Nat), n ≤ xs.length → ∀ (d : Json),
      getMember d "meshes" = some (Json.arr xs) →
      (getMember ((List.range n).foldl
          (fun d2 i => modMember d2 "meshes" (fun ms => modAt ms i g)) d)
          "meshes" =
        some (Json.arr ((xs.take n).map g ++ xs.drop n))) ∧
      ∀ k, ¬"meshes" = k →
        getMember ((List.range n).foldl
          (fun d2 i => modMember d2 "meshes" (fun ms => modAt ms i g)) d)
          k = getMember d k := by
  intro n
  induction n with
  | zero =>
    intro _ d hd
    exact ⟨by simpa using hd, fun k _ => rfl⟩
  | succ m ih =>
    intro hm d hd
    obtain ⟨ihm, ihk⟩ := ih (by omega) d hd
    rw [List.range_succ, List.foldl_append, List.foldl_cons, List.foldl_nil]
    have hsplit : xs.take m ++ xs.drop m = xs := List.take_append_drop m xs
    have hmlt : m < xs.length := by omega
    obtain ⟨x, hdropx⟩ : ∃ x, xs.drop m = x :: xs.drop (m + 1) := by
      refine ⟨xs.get ⟨m, hmlt⟩, ?_⟩
      rw [List.drop_eq_getElem_cons hmlt]
      rfl
    have hlen : ((xs.take m).map g).length = m := by
      simp [List.length_take]
      omega
    constructor
    · rw [getMember_modMember_same, ihm, hdropx]
      simp only [Option.map_some']
      rw [modAt]
      have hget : ((xs.take m).map g ++ x :: xs.drop (m + 1)).getD m
          Json.null = x := by
        have h2 := getD_append_length ((xs.take m).map g) (xs.drop (m + 1)) x
        rwa [hlen] at h2
      rw [hget]
      have hset : ((xs.take m).map g ++ x :: xs.drop (m + 1)).set m (g x) =
          (xs.take m).map g ++ g x :: xs.drop (m + 1) := by
        have h2 := set_append_length ((xs.take m).map g) (xs.drop (m + 1))
          x (g x)
        rwa [hlen] at h2
      rw [hset]
      have hxm : xs[m]? = some x := by
        have h0 := List.getElem?_drop xs m 0
        rw [Nat.add_zero, hdropx] at h0
        simpa using h0.symm
      have htake : xs.take (m + 1) = xs.take m ++ [x] := by
        rw [List.take_succ, hxm]
        rfl
      rw [htake]
      simp
    · intro k hk
      rw [getMember_modMember_ne _ _ _ _ hk]
      exact ihk k hk

/-- A mesh with no extras member gains extras.cascadio.materials and keeps
every other member unchanged. -/
theorem meshGain (mesh marr : Json) (hobj : ∃ fs, mesh = Json.obj fs)
    (hex : getMember mesh "extras" = none) :
    getMember (addMeshMaterials (ensureMeshCascadio mesh) marr) "extras" =
      some (Json.obj [("cascadio", Json.obj [("materials", marr)])]) ∧
    ∀ k, ¬"extras" = k →
      getMember (addMeshMaterials (ensureMeshCascadio mesh) marr) k =
        getMember mesh k := by
  obtain ⟨fs, rfl⟩ := hobj
  have hnm : hasMember (Json.obj fs) "extras" = false := by
    rw [hasMember, hex]
    rfl
  have hlk : lookupField fs "extras" = none := by
    rw [getMember] at hex
    exact hex
  have hadd : getMember (addMember (Json.obj fs) "extras" (Json.obj []))
      "extras" = some (Json.obj []) := getMember_addMember_absent fs _ _ hlk
  have hmesh2 : ensureMeshCascadio (Json.obj fs) =
      modMember (addMember (Json.obj fs) "extras" (Json.obj [])) "extras"
        (fun ex => addMember ex "cascadio" (Json.obj [])) := by
    rw [ensureMeshCascadio]
    simp only [hnm, Bool.false_eq_true, if_false]
    have : hasMember (getMemberD (addMember (Json.obj fs) "extras"
        (Json.obj [])) "extras") "cascadio" = false := by
      rw [getMemberD, hadd]
      rfl
    simp [this]
  constructor
  · rw [addMeshMaterials, hmesh2, getMember_modMember_same,
      getMember_modMember_same, hadd]
    rfl
  · intro k hk
    rw [addMeshMaterials, getMember_modMember_ne _ _ _ _ hk, hmesh2,
      getMember_modMember_ne _ _ _ _ hk, getMember_addMember_ne _ _ _ _ hk]

/-- C9 (amended): with no face data (empty shape list / empty face-data
list), materials injection leaves every member other than meshes — in
particular extensionsUsed, accessors, bufferViews and buffers — unchanged,
and touches nothing in a mesh outside its extras. In the snapshot entry
point (injectExtrasIntoGlbData) every mesh gains extras.cascadio.materials;
in the streaming hook (injectBrepExtensionIntoJson) only the FIRST mesh
gains it and the remaining meshes are returned unchanged. -/
theorem materialsOnly_frame (doc : Json) (meshes : List Json)
    (m0 : Json) (ms : List Json) (allowedTypes : List String) (u : ℚ)
    (L B : Nat)
    (hms : getMember doc "meshes" = some (Json.arr meshes))
    (hobjs : ∀ mesh ∈ meshes, (∃ fs, mesh = Json.obj fs) ∧
      getMember mesh "extras" = none) :
    (∀ k, ¬"meshes" = k →
      getMember (injectExtrasIntoGlbData doc [] allowedTypes
        (some (Json.arr (m0 :: ms))) u) k = getMember doc k) ∧
    getMember (injectExtrasIntoGlbData doc [] allowedTypes
        (some (Json.arr (m0 :: ms))) u) "meshes" =
      some (Json.arr (meshes.map (fun mesh =>
        addMeshMaterials (ensureMeshCascadio mesh) (Json.arr (m0 :: ms))))) ∧
    (∀ mesh ∈ meshes,
      getMember (addMeshMaterials (ensureMeshCascadio mesh)
        (Json.arr (m0 :: ms))) "extras" =
        some (Json.obj [("cascadio",
          Json.obj [("materials", Json.arr (m0 :: ms))])]) ∧
      ∀ k, ¬"extras" = k →
        getMember (addMeshMaterials (ensureMeshCascadio mesh)
          (Json.arr (m0 :: ms))) k = getMember mesh k) ∧
    (∀ k, ¬"meshes" = k →
      getMember (injectBrepExtensionIntoJson doc [] L B allowedTypes
        (some (Json.arr (m0 :: ms))) u) k = getMember doc k) ∧
    (∀ mh mt, meshes = mh :: mt →
      getMember (injectBrepExtensionIntoJson doc [] L B allowedTypes
        (some (Json.arr (m0 :: ms))) u) "meshes" =
      some (Json.arr (addMeshMaterials (ensureMeshCascadio mh)
        (Json.arr (m0 :: ms)) :: mt))) := by
  have hproc : ∀ (d : Json) (i : Nat),
      injectExtrasProcessMesh d i [] allowedTypes
        (some (Json.arr (m0 :: ms))) u =
      modMember d "meshes" (fun msv => modAt msv i (fun mesh =>
        addMeshMaterials (ensureMeshCascadio mesh)
          (Json.arr (m0 :: ms)))) := by
    intro d i
    rw [injectExtrasProcessMesh]
    simp [isArr, arrSize]
  have hga : hasArrayMember doc "meshes" = true := by
    rw [hasArrayMember, hms]
  have harrSize : arrSize (getMemberD doc "meshes") = meshes.length := by
    rw [getMemberD, hms]
    rfl
  have hsnap : injectExtrasIntoGlbData doc [] allowedTypes
      (some (Json.arr (m0 :: ms))) u =
      (List.range meshes.length).foldl
        (fun d2 i => modMember d2 "meshes" (fun msv => modAt msv i
          (fun mesh => addMeshMaterials (ensureMeshCascadio mesh)
            (Json.arr (m0 :: ms))))) doc := by
    rw [injectExtrasIntoGlbData, if_pos hga, harrSize]
    congr 1
    funext d2 i
    exact hproc d2 i
  obtain ⟨hfold, hframe⟩ := foldRange_modMeshes
    (fun mesh => addMeshMaterials (ensureMeshCascadio mesh)
      (Json.arr (m0 :: ms))) meshes meshes.length (le_refl _) doc hms
  have hstream : injectBrepExtensionIntoJson doc [] L B allowedTypes
      (some (Json.arr (m0 :: ms))) u =
      streamStageMaterials doc (some (Json.arr (m0 :: ms))) := by
    rw [injectBrepExtensionIntoJson,
      if_neg (by simp : ¬(([] : List FaceTriangleData) ≠ [] ∧ B > 0))]
  refine ⟨?_, ?_, ?_, ?_, ?_⟩
  · intro k hk
    rw [hsnap]
    exact hframe k hk
  · rw [hsnap, hfold]
    simp
  · intro mesh hmem
    exact meshGain mesh _ (hobjs mesh hmem).1 (hobjs mesh hmem).2
  · intro k hk
    rw [hstream]
    exact streamStageMaterials_ne doc _ k hk
  · intro mh mt hcons
    subst hcons
    rw [hstream, streamStageMaterials]
    have hne : hasArrayMemberNonempty doc "meshes" = true := by
      rw [hasArrayMemberNonempty, hms]
    rw [if_pos hne, getMember_modMember_same, hms]
    simp [modAt, List.getD]

/-- Two-mesh container for the C9 counterexample and witness. -/
def doc2m : Json :=
  Json.obj [("meshes", Json.arr [Json.obj [], Json.obj []])]

/-- C9 counterexample: in the streaming hook, materials-only injection into
a two-mesh container leaves the second mesh without any extras member —
it does not gain a materials entry, contradicting "every mesh". -/
theorem materialsOnly_counterexample :
    hasMember (getMeshAt (injectBrepExtensionIntoJson doc2m [] 0 0 []
      (some (Json.arr [Json.num 1])) 1) 1) "extras" = false := by
  decide

/-- Witness for C9 (amended) at the concrete two-mesh container. -/
theorem materialsOnly_frame_witness :
    getMember (injectExtrasIntoGlbData doc2m [] []
        (some (Json.arr [Json.num 1])) 1) "meshes" =
      some (Json.arr (([Json.obj [], Json.obj []].map (fun mesh =>
        addMeshMaterials (ensureMeshCascadio mesh)
          (Json.arr [Json.num 1]))))) ∧
    getMember (injectBrepExtensionIntoJson doc2m [] 0 0 []
        (some (Json.arr [Json.num 1])) 1) "meshes" =
      some (Json.arr (addMeshMaterials (ensureMeshCascadio (Json.obj []))
        (Json.arr [Json.num 1]) :: [Json.obj []])) := by
  have h := materialsOnly_frame doc2m [Json.obj [], Json.obj []]
    (Json.num 1) [] [] 1 0 0 rfl (by
      intro mesh hmem
      simp only [List.mem_cons, List.not_mem_nil, or_false] at hmem
      rcases hmem with rfl | rfl
      · exact ⟨⟨[], rfl⟩, rfl⟩
      · exact ⟨⟨[], rfl⟩, rfl⟩)
  exact ⟨h.2.1, h.2.2.2.2 (Json.obj []) [Json.obj []] rfl⟩

/-! ## Snapshot/streaming equivalence (claim C8) -/

theorem setFirst_congr (fs : List (String × Json)) (k : String)
    (f g : Json → Json) (v : Json) (hl : lookupField fs k = some v)
    (hfg : f v = g v) : setFirst fs k f = setFirst fs k g := by
  induction fs with
  | nil => rfl
  | cons kv rest ih =>
    rw [setFirst, setFirst]
    rw [lookupField] at hl
    by_cases hk : kv.1 = k
    · simp only [hk, if_true] at hl ⊢
      obtain rfl : kv.2 = v := by simpa using hl
      rw [hfg]
    · simp only [hk, if_false] at hl ⊢
      rw [ih hl]

theorem modMember_congr (j : Json) (k : String) (f g : Json → Json)
    (v : Json) (hj : getMember j k = some v) (hfg : f v = g v) :
    modMember j k f = modMember j k g := by
  cases j <;> simp [getMember] at hj
  next fs =>
    rw [modMember, modMember, hj]
    rw [setFirst_congr fs k f g v hj hfg]

theorem setFirst_setFirst (fs : List (String × Json)) (k : String)
    (f g : Json → Json) :
    setFirst (setFirst fs k f) k g = setFirst fs k (fun x => g (f x)) := by
  induction fs with
  | nil => rfl
  | cons kv rest ih =>
    rw [setFirst]
    by_cases hk : kv.1 = k
    · simp [hk, setFirst]
    · simp only [hk, if_false]
      rw [setFirst, setFirst]
      simp [hk, ih]

theorem modMember_comp (j : Json) (k : String) (f g : Json → Json)
    (v : Json) (hj : getMember j k = some v) :
    modMember (modMember j k f) k g =
      modMember j k (fun x => g (f x)) := by
  cases j <;> simp [getMember] at hj
  next fs =>
    rw [modMember, hj, modMember]
    rw [lookupField_setFirst_same, hj]
    simp only [Option.map_some']
    rw [modMember, hj, setFirst_setFirst]

theorem padZero4_length (l : List Nat) :
    (padZero4 l).length = roundUp4 l.length := by
  simp [padZero4, roundUp4]
  omega

theorem padZero4_of_aligned (l : List Nat) (h : l.length % 4 = 0) :
    padZero4 l = l := by
  simp [padZero4, h]

theorem u32ArrayBytes_length (xs : List Nat) :
    (u32ArrayBytes xs).length = 4 * xs.length := by
  induction xs with
  | nil => rfl
  | cons x rest ih =>
    show (le32 x ++ u32ArrayBytes rest).length = 4 * (rest.length + 1)
    rw [List.length_append, le32_length, ih]
    omega

/-- With a well-formed (absent or array) bufferViews member, the snapshot
and streaming bufferViews blocks agree. -/
theorem bufferViews_stage_eq (d : Json) (o b : Nat)
    (hwfv : getMember d "bufferViews" = none ∨
      ∃ xs, getMember d "bufferViews" = some (Json.arr xs)) :
    snapStageBufferViews d o b = streamStageBufferViews d o b := by
  rcases hwfv with habs | ⟨xs, hxs⟩
  · have h1 : hasArrayMember d "bufferViews" = false := by
      rw [hasArrayMember, habs]
    have h2 : hasMember d "bufferViews" = false := by
      rw [hasMember, habs]
      rfl
    rw [snapStageBufferViews, streamStageBufferViews]
    simp [h1, h2]
  · have h1 : hasArrayMember d "bufferViews" = true := by
      rw [hasArrayMember, hxs]
    have h2 : hasMember d "bufferViews" = true := by
      rw [hasMember, hxs]
      rfl
    rw [snapStageBufferViews, streamStageBufferViews]
    simp [h1, h2]

/-- With a well-formed accessors member and a byte count that is 4 times the
element count, the snapshot and streaming accessors blocks agree. -/
theorem accessors_stage_eq (d : Json) (bvId count b : Nat)
    (hb : b / 4 = count)
    (hwfa : getMember d "accessors" = none ∨
      ∃ xs, getMember d "accessors" = some (Json.arr xs)) :
    snapStageAccessors d bvId count = streamStageAccessors d bvId b := by
  rcases hwfa with habs | ⟨xs, hxs⟩
  · have h1 : hasArrayMember d "accessors" = false := by
      rw [hasArrayMember, habs]
    have h2 : hasMember d "accessors" = false := by
      rw [hasMember, habs]
      rfl
    rw [snapStageAccessors, streamStageAccessors]
    simp [h1, h2]
  · have h1 : hasArrayMember d "accessors" = true := by
      rw [hasArrayMember, hxs]
    have h2 : hasMember d "accessors" = true := by
      rw [hasMember, hxs]
      rfl
    rw [snapStageAccessors, streamStageAccessors]
    simp [h1, h2, hb]

/-- On a single-mesh, single-primitive container whose primitive does not
already carry the vendor extension, the snapshot attach+materials block
(which walks all meshes and primitives, with a duplicate check) agrees with
the streaming attach block on the first mesh/primitive followed by the
streaming materials block, provided the supplied materials value is either
absent or a non-empty array. -/
theorem meshes_stage_eq (d : Json) (accId : Nat) (facesArray : List Json)
    (materials : Option Json) (mesh0 prim0 : Json)
    (hm : getMember d "meshes" = some (Json.arr [mesh0]))
    (hprim : getMember mesh0 "primitives" = some (Json.arr [prim0]))
    (hp0 : ∃ fs, prim0 = Json.obj fs)
    (hext : ∀ e, getMember prim0 "extensions" = some e →
      getMember e EXTENSION_NAME = none)
    (hmat : materials = none ∨ ∃ y ys, materials = some (Json.arr (y :: ys))) :
    snapStageMeshes d accId facesArray materials =
      streamStageMaterials (streamStageMeshAttach d accId facesArray)
        materials := by
  obtain ⟨pfs, hpfs⟩ := hp0
  have hprim_eq : snapPrimFn accId facesArray prim0 =
      streamPrimFn accId facesArray prim0 := by
    have hc : hasMember (getMemberD (ensurePrimExtensions prim0)
        "extensions") EXTENSION_NAME = false := by
      rw [ensurePrimExtensions]
      by_cases hhe : hasMember prim0 "extensions"
      · rw [if_pos hhe]
        rw [hasMember] at hhe
        obtain ⟨e, he⟩ := Option.isSome_iff_exists.1 hhe
        rw [getMemberD, he, Option.getD_some, hasMember, hext e he]
        rfl
      · rw [if_neg hhe]
        rw [hasMember] at hhe
        have hlk : lookupField pfs "extensions" = none := by
          rw [hpfs, getMember] at hhe
          cases hl2 : lookupField pfs "extensions"
          · rfl
          · rw [hl2] at hhe
            simp at hhe
        rw [hpfs, getMemberD,
          getMember_addMember_absent pfs "extensions" (Json.obj []) hlk]
        rfl
    rw [snapPrimFn, if_neg (by rw [hc]; simp)]
    rfl
  have hmesh_eq : snapMeshAttachFn accId facesArray mesh0 =
      streamMeshFn accId facesArray mesh0 := by
    have h1 : hasArrayMember mesh0 "primitives" = true := by
      rw [hasArrayMember, hprim]
    have h2 : hasArrayMemberNonempty mesh0 "primitives" = true := by
      rw [hasArrayMemberNonempty, hprim]
    rw [snapMeshAttachFn, streamMeshFn, if_pos h1, if_pos h2]
    apply modMember_congr _ _ _ _ _ hprim
    show Json.arr [snapPrimFn accId facesArray prim0] =
      modAt (Json.arr [prim0]) 0 (streamPrimFn accId facesArray)
    rw [hprim_eq]
    rfl
  have h1 : hasArrayMember d "meshes" = true := by
    rw [hasArrayMember, hm]
  have h2 : hasArrayMemberNonempty d "meshes" = true := by
    rw [hasArrayMemberNonempty, hm]
  rcases hmat with rfl | ⟨y, ys, rfl⟩
  · rw [snapStageMeshes, streamStageMeshAttach, streamStageMaterials,
      if_pos h1, if_pos h2]
    apply modMember_congr _ _ _ _ _ hm
    show Json.arr [snapMeshMaterialsFn none
        (snapMeshAttachFn accId facesArray mesh0)] =
      modAt (Json.arr [mesh0]) 0 (streamMeshFn accId facesArray)
    rw [show snapMeshMaterialsFn none
        (snapMeshAttachFn accId facesArray mesh0) =
      snapMeshAttachFn accId facesArray mesh0 from rfl, hmesh_eq]
    rfl
  · rw [snapStageMeshes, streamStageMeshAttach, streamStageMaterials,
      if_pos h1, if_pos h2]
    have hafter : getMember (modMember d "meshes" (fun ms => modAt ms 0
        (streamMeshFn accId facesArray))) "meshes" =
        some (modAt (Json.arr [mesh0]) 0 (streamMeshFn accId facesArray)) := by
      rw [getMember_modMember_same, hm]
      rfl
    have h3 : hasArrayMemberNonempty (modMember d "meshes" (fun ms =>
        modAt ms 0 (streamMeshFn accId facesArray))) "meshes" = true := by
      rw [hasArrayMemberNonempty, hafter]
      rfl
    rw [if_pos h3, modMember_comp _ _ _ _ _ hm]
    apply modMember_congr _ _ _ _ _ hm
    show Json.arr [snapMeshMaterialsFn (some (Json.arr (y :: ys)))
        (snapMeshAttachFn accId facesArray mesh0)] =
      modAt (modAt (Json.arr [mesh0]) 0 (streamMeshFn accId facesArray)) 0
        (fun mesh => addMeshMaterials (ensureMeshCascadio mesh)
          (Json.arr (y :: ys)))
    rw [show snapMeshMaterialsFn (some (Json.arr (y :: ys)))
        (snapMeshAttachFn accId facesArray mesh0) =
      addMeshMaterials (ensureMeshCascadio
        (snapMeshAttachFn accId facesArray mesh0))
        (Json.arr (y :: ys)) from by
        simp [snapMeshMaterialsFn, isArr, arrSize], hmesh_eq]
    rfl

theorem roundUp4_mod (n : Nat) : roundUp4 n % 4 = 0 := by
  rw [roundUp4]
  omega

theorem roundUp4_of_mul4 (k : Nat) : roundUp4 (4 * k) = 4 * k := by
  rw [roundUp4]
  omega

/-- C8 (amended): for the same inputs — same parsed base container with a
single mesh holding a single primitive that does not already carry the
extension, same face data (with a positive triangle total), materials either
absent or a non-empty array, and the streaming hook invoked with the
existing binary length and payload size a consistent caller passes
(origBin.length and 4 * totalTriangles bytes) — the snapshot injector
produces exactly the JSON document of the streaming JSON hook together with
the binary region of the spec-modelled streaming binary-append hook. -/
theorem snapshot_streaming_equiv (doc : Json) (origBin : List Nat)
    (faceData : List FaceTriangleData) (allowedTypes : List String)
    (materials : Option Json) (u : ℚ) (T : Int) (mesh0 prim0 : Json)
    (hwf : ∀ fd ∈ faceData, 0 ≤ fd.triStart ∧ 0 ≤ fd.triCount ∧
      fd.triStart + fd.triCount < 2147483648)
    (hT : totalTrianglesAux faceData 0 = some T) (hpos : 0 < T)
    (hbvwf : getMember doc "bufferViews" = none ∨
      ∃ xs, getMember doc "bufferViews" = some (Json.arr xs))
    (haccwf : getMember doc "accessors" = none ∨
      ∃ xs, getMember doc "accessors" = some (Json.arr xs))
    (hm : getMember doc "meshes" = some (Json.arr [mesh0]))
    (hprim : getMember mesh0 "primitives" = some (Json.arr [prim0]))
    (hp0 : ∃ fs, prim0 = Json.obj fs)
    (hext : ∀ e, getMember prim0 "extensions" = some e →
      getMember e EXTENSION_NAME = none)
    (hmat : materials = none ∨ ∃ y ys, materials = some (Json.arr (y :: ys)))
    (hsm1 : origBin.length + 3 < 4294967296)
    (hsm2 : roundUp4 origBin.length + 4 * T.toNat < 4294967296) :
    injectBrepExtensionWithFaceData doc origBin faceData allowedTypes
        materials u =
      some (injectBrepExtensionIntoJson doc faceData origBin.length
          (4 * T.toNat) allowedTypes materials u,
        streamingBinaryAppend origBin faceData T) := by
  have hfd : faceData ≠ [] := by
    intro h
    subst h
    rw [totalTrianglesAux] at hT
    simp at hT
    omega
  have hBpos : 4 * T.toNat > 0 := by omega
  have hfl : (buildFaceIndices faceData T).length = T.toNat :=
    buildFaceIndices_length faceData T
  have hnb0 : (padZero4 origBin).length = roundUp4 origBin.length :=
    padZero4_length origBin
  have hbytes : (u32ArrayBytes (buildFaceIndices faceData T)).length =
      4 * T.toNat := by
    rw [u32ArrayBytes_length, hfl]
  have hnbd : padZero4 (padZero4 origBin ++
      u32ArrayBytes (buildFaceIndices faceData T)) =
      padZero4 origBin ++ u32ArrayBytes (buildFaceIndices faceData T) := by
    apply padZero4_of_aligned
    rw [List.length_append, hnb0, hbytes]
    have := roundUp4_mod origBin.length
    omega
  have hnbl2 : (padZero4 origBin ++
      u32ArrayBytes (buildFaceIndices faceData T)).length =
      roundUp4 origBin.length + 4 * T.toNat := by
    rw [List.length_append, hnb0, hbytes]
  have halignL : alignUp4u32 origBin.length = roundUp4 origBin.length :=
    alignUp4u32_eq _ hsm1
  have halignB : alignUp4u32 (4 * T.toNat) = 4 * T.toNat := by
    rw [alignUp4u32_eq _ (by omega), roundUp4_of_mul4]
  rw [injectBrepExtensionWithFaceData, hT]
  dsimp only
  rw [if_neg (by omega : ¬T ≤ 0)]
  rw [injectBrepExtensionIntoJson,
    if_pos (⟨hfd, hBpos⟩ : faceData ≠ [] ∧ 4 * T.toNat > 0)]
  simp only [hnbd]
  simp only [hnbl2, hfl, hnb0]
  simp only [halignL, halignB]
  simp only [Nat.mod_eq_of_lt hsm2]
  set d1 := stageUpdateBufferLength doc
    (roundUp4 origBin.length + 4 * T.toNat) with hd1
  have hd1bv : getMember d1 "bufferViews" = getMember doc "bufferViews" := by
    rw [hd1, stageUpdateBufferLength_ne _ _ _ (by decide)]
  have hd1acc : getMember d1 "accessors" = getMember doc "accessors" := by
    rw [hd1, stageUpdateBufferLength_ne _ _ _ (by decide)]
  have hd1m : getMember d1 "meshes" = getMember doc "meshes" := by
    rw [hd1, stageUpdateBufferLength_ne _ _ _ (by decide)]
  have hwf1 : getMember d1 "bufferViews" = none ∨
      ∃ xs, getMember d1 "bufferViews" = some (Json.arr xs) := by
    rw [hd1bv]
    exact hbvwf
  rw [bufferViews_stage_eq d1 (roundUp4 origBin.length) (4 * T.toNat) hwf1]
  set d2 := streamStageBufferViews d1 (roundUp4 origBin.length)
    (4 * T.toNat) with hd2
  have hd2acc : getMember d2 "accessors" = getMember doc "accessors" := by
    rw [hd2, streamStageBufferViews_ne _ _ _ _ (by decide), hd1acc]
  have hd2m : getMember d2 "meshes" = getMember doc "meshes" := by
    rw [hd2, streamStageBufferViews_ne _ _ _ _ (by decide), hd1m]
  have hwf2 : getMember d2 "accessors" = none ∨
      ∃ xs, getMember d2 "accessors" = some (Json.arr xs) := by
    rw [hd2acc]
    exact haccwf
  rw [accessors_stage_eq d2
    (if hasArrayMember d1 "bufferViews" then
      arrSize (getMemberD d1 "bufferViews") else 0)
    T.toNat (4 * T.toNat) (by omega) hwf2]
  set d3 := streamStageAccessors d2
    (if hasArrayMember d1 "bufferViews" then
      arrSize (getMemberD d1 "bufferViews") else 0) (4 * T.toNat) with hd3
  have hd3m : getMember d3 "meshes" = getMember doc "meshes" := by
    rw [hd3, streamStageAccessors_ne _ _ _ _ (by decide), hd2m]
  have hd4m : getMember (ensureExtensionUsed d3) "meshes" =
      some (Json.arr [mesh0]) := by
    rw [ensureExtensionUsed_getMember_ne d3 _ (by decide), hd3m, hm]
  rw [meshes_stage_eq (ensureExtensionUsed d3)
    (if hasArrayMember d2 "accessors" then
      arrSize (getMemberD d2 "accessors") else 0)
    (facesArrayOf faceData allowedTypes u) materials mesh0 prim0 hd4m
    hprim hp0 hext hmat]
  rw [streamingBinaryAppend]

/-- Primitive j of mesh i of a document. -/
def getPrimAt (d : Json) (i j : Nat) : Json :=
  match getMember (getMeshAt d i) "primitives" with
  | some (Json.arr ps) => ps.getD j Json.null
  | _ => Json.null

/-- Whether a primitive carries the vendor extension. -/
def primHasExt (p : Json) : Bool :=
  hasMember (getMemberD p "extensions") EXTENSION_NAME

/-- Two-mesh, one-primitive-each container for the C8 counterexample. -/
def doc2mp : Json :=
  Json.obj [("meshes", Json.arr
    [Json.obj [("primitives", Json.arr [Json.obj []])],
     Json.obj [("primitives", Json.arr [Json.obj []])]])]

/-- C8 counterexample: on a two-mesh container with the same face data and
consistent hook arguments, the snapshot injector attaches the extension to
the second mesh's primitive while the streaming hook does not — the two
paths do not produce the same JSON graph mutations. -/
theorem snapshot_streaming_diverge :
    (∃ d bin, injectBrepExtensionWithFaceData doc2mp [] fdsW [] none 1 =
        some (d, bin) ∧ primHasExt (getPrimAt d 1 0) = true) ∧
    primHasExt (getPrimAt
      (injectBrepExtensionIntoJson doc2mp fdsW 0 12 [] none 1) 1 0) =
      false := by
  constructor
  · exact ⟨_, _, rfl, by decide⟩
  · decide

/-- Single-mesh base container and binary region for the C8 witness. -/
def binW : List Nat := List.replicate 13 7

/-- Witness for C8 (amended) at a concrete single-mesh container. -/
theorem snapshot_streaming_equiv_witness :
    injectBrepExtensionWithFaceData docW binW fdsW [] none 1 =
      some (injectBrepExtensionIntoJson docW fdsW binW.length
          (4 * (3 : Int).toNat) [] none 1,
        streamingBinaryAppend binW fdsW 3) :=
  snapshot_streaming_equiv docW binW fdsW [] none 1 3
    (Json.obj [("primitives", Json.arr [Json.obj []])]) (Json.obj [])
    (by decide) (by decide) (by decide)
    (Or.inr ⟨[], rfl⟩) (Or.inr ⟨[], rfl⟩) rfl rfl ⟨[], rfl⟩
    (fun e h => by simp [getMember, lookupField] at h)
    (Or.inl rfl) (by decide) (by decide)

end Cascadio
